import Mathlib

/-!
# seccomp-run (unikraft/loupe): filter builder, tracee reader, tracer loop

A shallow embedding of `src/seccomp-run.c`.  C integers are `Nat`/`Int` with the
wrap-around of their C type written out; kernel services (`ptrace`, `waitpid`,
`readlink`, `fork`) are inputs of the functions that call them.
-/

namespace Loupe

/-! ## Constants -/

/-- `#define X32_SYSCALL_BIT 0x40000000`. -/
def X32_SYSCALL_BIT : Nat := 0x40000000

/-- `#define DO_ERRNO 0x1`. -/
def DO_ERRNO : Nat := 0x1
/-- `#define DO_CRASH 0x2`. -/
def DO_CRASH : Nat := 0x2
/-- `#define DO_PTRACE 0x4`. -/
def DO_PTRACE : Nat := 0x4
/-- `#define DO_PARTIALSTUB 0x8`. -/
def DO_PARTIALSTUB : Nat := 0x8
/-- `#define DO_CHECKPATH 0x10`. -/
def DO_CHECKPATH : Nat := 0x10
/-- `#define DO_PATHSTUB 0x20`. -/
def DO_PATHSTUB : Nat := 0x20

/-- `#define SETF(N, F) (N) = ((N) | (F))`, as the new value of `N`. -/
def SETF (n f : Nat) : Nat := n ||| f

/-- `#define ISSET(N, F) (((N) & (F)) != 0)`. -/
def ISSET (n f : Nat) : Bool := (n &&& f) != 0

/-- `EXIT_SUCCESS` of `<stdlib.h>`. -/
def EXIT_SUCCESS : Nat := 0
/-- `EXIT_FAILURE` of `<stdlib.h>`. -/
def EXIT_FAILURE : Nat := 1

/-- `PATH_MAX` of `<linux/limits.h>`. -/
def PATH_MAX : Nat := 4096

/-- Opcode class and mode bits of `<linux/bpf_common.h>`. -/
def BPF_LD : Nat := 0x00
def BPF_W : Nat := 0x00
def BPF_ABS : Nat := 0x20
def BPF_JMP : Nat := 0x05
def BPF_JEQ : Nat := 0x10
def BPF_JGT : Nat := 0x20
def BPF_K : Nat := 0x00
def BPF_RET : Nat := 0x06

/-- `AUDIT_ARCH_X86_64` of `<linux/audit.h>`:
`EM_X86_64 | __AUDIT_ARCH_64BIT | __AUDIT_ARCH_LE`. -/
def AUDIT_ARCH_X86_64 : Nat := 0xC000003E
/-- `AUDIT_ARCH_I386` of `<linux/audit.h>`: `EM_386 | __AUDIT_ARCH_LE`. -/
def AUDIT_ARCH_I386 : Nat := 0x40000003

/-- Verdicts of `<linux/seccomp.h>`. -/
def SECCOMP_RET_KILL_PROCESS : Nat := 0x80000000
def SECCOMP_RET_ERRNO : Nat := 0x00050000
def SECCOMP_RET_TRACE : Nat := 0x7ff00000
def SECCOMP_RET_ALLOW : Nat := 0x7fff0000
def SECCOMP_RET_DATA : Nat := 0x0000ffff

/-! ## Machine integers -/

/-- Conversion of a C integer to `unsigned char` / `__u8`. -/
def toU8 (x : Int) : Nat := (x % 2 ^ 8).toNat
/-- Conversion of a C integer to `unsigned short` / `__u16`. -/
def toU16 (x : Int) : Nat := (x % 2 ^ 16).toNat
/-- Conversion of a C integer to `unsigned int` / `__u32`. -/
def toU32 (x : Int) : Nat := (x % 2 ^ 32).toNat
/-- Conversion of a C integer to `unsigned long` (64 bits on x86_64). -/
def toU64 (x : Int) : Nat := (x % 2 ^ 64).toNat
/-- Conversion of a C integer to `int` (32 bits, two's complement). -/
def toInt32 (x : Int) : Int := (x + 2 ^ 31) % 2 ^ 32 - 2 ^ 31
/-- Conversion of a 64-bit word to `long` (two's complement). -/
def toLong (x : Nat) : Int :=
  if x % 2 ^ 64 < 2 ^ 63 then ((x % 2 ^ 64 : Nat) : Int) else ((x % 2 ^ 64 : Nat) : Int) - 2 ^ 64

/-! ## The classifier program (`install_filter`) -/

/-- `struct sock_filter` of `<linux/filter.h>`:
`__u16 code; __u8 jt; __u8 jf; __u32 k;`. -/
structure sock_filter where
  code : Nat
  jt : Nat
  jf : Nat
  k : Nat
  deriving DecidableEq, Repr

/-- `BPF_STMT(code, k)`: `{ (unsigned short)(code), 0, 0, k }`. -/
def BPF_STMT (code : Nat) (k : Int) : sock_filter :=
  { code := toU16 code, jt := 0, jf := 0, k := toU32 k }

/-- `BPF_JUMP(code, k, jt, jf)`: `{ (unsigned short)(code), jt, jf, k }`; each
initialiser is converted to the width of its field. -/
def BPF_JUMP (code : Nat) (k : Int) (jt jf : Int) : sock_filter :=
  { code := toU16 code, jt := toU8 jt, jf := toU8 jf, k := toU32 k }

/-- `struct seccomp_data` of `<linux/seccomp.h>`:
`int nr; __u32 arch; __u64 instruction_pointer; __u64 args[6];`, the 32-bit
fields held as their unsigned bit pattern. -/
structure seccomp_data where
  nr : Nat
  arch : Nat
  instruction_pointer : Nat := 0
  args : List Nat := []
  deriving Repr

/-- `offsetof(struct seccomp_data, nr)`. -/
def offsetof_nr : Nat := 0
/-- `offsetof(struct seccomp_data, arch)`. -/
def offsetof_arch : Nat := 4

/-- The instructions emitted for one configured syscall (one iteration of the
`for` loop of `install_filter`); `none` is the `return 1` of the last branch. -/
def filter_sys_i (flags : Nat) (f_errno : Int) (s : Int) : Option (List sock_filter) :=
  if ISSET flags DO_PTRACE then
    some [BPF_JUMP (BPF_JMP ||| BPF_JEQ ||| BPF_K) s 0 1,
          BPF_STMT (BPF_RET ||| BPF_K) SECCOMP_RET_TRACE]
  else if ISSET flags DO_ERRNO then
    some [BPF_JUMP (BPF_JMP ||| BPF_JEQ ||| BPF_K) s 0 1,
          BPF_STMT (BPF_RET ||| BPF_K)
            (SECCOMP_RET_ERRNO ||| (toU32 f_errno &&& SECCOMP_RET_DATA) : Nat)]
  else if ISSET flags DO_CRASH then
    some [BPF_JUMP (BPF_JMP ||| BPF_JEQ ||| BPF_K) s 0 1,
          BPF_STMT (BPF_RET ||| BPF_K) SECCOMP_RET_KILL_PROCESS]
  else
    none

/-- The `for (int i = 0; i < num; i++)` loop of `install_filter`: the pairs
appended after `filter_base`, in order. -/
def filter_rules (flags : Nat) (f_errno : Int) : List Int → Option (List sock_filter)
  | [] => some []
  | s :: rest =>
    match filter_sys_i flags f_errno s with
    | none => none
    | some pair =>
      match filter_rules flags f_errno rest with
      | none => none
      | some tl => some (pair ++ tl)

/-- The array `filter_base` of `install_filter`, for `num` configured syscalls. -/
def filter_base (num : Nat) : List sock_filter :=
  [ BPF_STMT (BPF_LD ||| BPF_W ||| BPF_ABS) offsetof_arch,
    BPF_JUMP (BPF_JMP ||| BPF_JEQ ||| BPF_K) AUDIT_ARCH_X86_64 0 (3 + 2 * num),
    BPF_STMT (BPF_LD ||| BPF_W ||| BPF_ABS) offsetof_nr,
    BPF_JUMP (BPF_JMP ||| BPF_JGT ||| BPF_K) (X32_SYSCALL_BIT - 1 : Nat) (1 + 2 * num) 0 ]

/-- The array `filter_end` of `install_filter`. -/
def filter_end : List sock_filter :=
  [ BPF_STMT (BPF_RET ||| BPF_K) SECCOMP_RET_ALLOW,
    BPF_STMT (BPF_RET ||| BPF_K) SECCOMP_RET_KILL_PROCESS ]

/-- `install_filter(num, syscalls, flags, f_errno)` with `num` the length of
`syscalls`: the `6 + 2 * num` instructions of `filter` that are handed to
`seccomp(SECCOMP_SET_MODE_FILTER)`, or `none` when the function returns 1
on invalid flags before reaching the kernel. -/
def install_filter (syscalls : List Int) (flags : Nat) (f_errno : Int) :
    Option (List sock_filter) :=
  match filter_rules flags f_errno syscalls with
  | none => none
  | some rules => some (filter_base syscalls.length ++ rules ++ filter_end)

/-- The 32-bit word of `struct seccomp_data` at byte offset `off`
(`BPF_LD | BPF_W | BPF_ABS`), little-endian; `none` outside the record or
unaligned. -/
def seccomp_load (d : seccomp_data) (off : Nat) : Option Nat :=
  if off % 4 ≠ 0 ∨ 64 ≤ off then none
  else if off = 0 then some (d.nr % 2 ^ 32)
  else if off = 4 then some (d.arch % 2 ^ 32)
  else if off = 8 then some (d.instruction_pointer % 2 ^ 32)
  else if off = 12 then some (d.instruction_pointer / 2 ^ 32 % 2 ^ 32)
  else
    let a := d.args.getD ((off - 16) / 8) 0
    if off % 8 = 0 then some (a % 2 ^ 32) else some (a / 2 ^ 32 % 2 ^ 32)

/-- The classic-BPF machine restricted to the four opcodes `install_filter`
emits: accumulator `A`, program counter `pc`; jumps are relative to the next
instruction.  `none`: fuel ran out, `pc` left the program, or another opcode. -/
def bpf_run (prog : List sock_filter) (d : seccomp_data) : Nat → Nat → Nat → Option Nat
  | 0, _, _ => none
  | fuel + 1, pc, A =>
    match prog[pc]? with
    | none => none
    | some ins =>
      if ins.code = (BPF_LD ||| BPF_W ||| BPF_ABS) then
        match seccomp_load d ins.k with
        | none => none
        | some v => bpf_run prog d fuel (pc + 1) v
      else if ins.code = (BPF_JMP ||| BPF_JEQ ||| BPF_K) then
        bpf_run prog d fuel (pc + 1 + (if A = ins.k then ins.jt else ins.jf)) A
      else if ins.code = (BPF_JMP ||| BPF_JGT ||| BPF_K) then
        bpf_run prog d fuel (pc + 1 + (if A > ins.k then ins.jt else ins.jf)) A
      else if ins.code = (BPF_RET ||| BPF_K) then
        some ins.k
      else none

/-- The verdict of a filter on a record: run from instruction 0; every
instruction moves forward, so `prog.length` steps are enough. -/
def seccomp_run (prog : List sock_filter) (d : seccomp_data) : Option Nat :=
  bpf_run prog d prog.length 0 0

/-- The value `V` returned for a configured syscall, by the branch of the
`for` loop that `flags` selects. -/
def rule_verdict (flags : Nat) (f_errno : Int) : Nat :=
  if ISSET flags DO_PTRACE then SECCOMP_RET_TRACE
  else if ISSET flags DO_ERRNO then SECCOMP_RET_ERRNO ||| (toU32 f_errno &&& 0xffff)
  else SECCOMP_RET_KILL_PROCESS

/-! ## Process outcomes -/

/-- How a call ends: it returns a value, or the process leaves through
`exit(code)`. -/
inductive Outcome (α : Type) where
  | ret (a : α)
  | exit (code : Nat)
  deriving DecidableEq, Repr

/-! ## The argument extractor (`ptrace_get_syscall_args`) -/

/-- `struct user_regs_struct` of `<sys/user.h>` (x86_64): 27 fields of type
`unsigned long long`, in declaration order. -/
structure user_regs_struct where
  r15 : Nat
  r14 : Nat
  r13 : Nat
  r12 : Nat
  rbp : Nat
  rbx : Nat
  r11 : Nat
  r10 : Nat
  r9 : Nat
  r8 : Nat
  rax : Nat
  rcx : Nat
  rdx : Nat
  rsi : Nat
  rdi : Nat
  orig_rax : Nat
  rip : Nat
  cs : Nat
  eflags : Nat
  rsp : Nat
  ss : Nat
  fs_base : Nat
  gs_base : Nat
  ds : Nat
  es : Nat
  fs : Nat
  gs : Nat
  deriving DecidableEq, Repr

/-- `ptrace_get_syscall_args(argn, regs)`: the `switch` on `argn`, each case a
cast of one register to `long`; the `default` case calls `exit(EXIT_FAILURE)`. -/
def ptrace_get_syscall_args (argn : Int) (regs : user_regs_struct) : Outcome Int :=
  if argn = 0 then .ret (toLong regs.rdi)
  else if argn = 1 then .ret (toLong regs.rsi)
  else if argn = 2 then .ret (toLong regs.rdx)
  else if argn = 3 then .ret (toLong regs.r10)
  else if argn = 4 then .ret (toLong regs.r8)
  else if argn = 5 then .ret (toLong regs.r9)
  else .exit EXIT_FAILURE

/-! ## Byte buffers and C strings -/

/-- `memset(buf, c, n)` on an array given as its bytes: the first `n` bytes
become `(unsigned char) c`. -/
def memset (buf : List Nat) (c : Nat) (n : Nat) : List Nat :=
  buf.enum.map (fun ib => if ib.1 < n then c % 256 else ib.2)

/-- A store of the 64-bit word `w` into `((long *) buf)[idx]`: bytes
`8 * idx .. 8 * idx + 7` become the little-endian bytes of `w`. -/
def storeWord (buf : List Nat) (idx : Nat) (w : Nat) : List Nat :=
  buf.enum.map (fun ib =>
    if 8 * idx ≤ ib.1 ∧ ib.1 < 8 * idx + 8 then w / 256 ^ (ib.1 - 8 * idx) % 256 else ib.2)

/-- The C string held in a character array: the bytes before the first NUL. -/
def cstring (buf : List Nat) : List Nat := buf.takeWhile (fun b => b != 0)

/-- `strcmp(a, b)` on two character arrays: the difference of the first pair
of differing bytes, 0 when both strings end together; `none` when the scan
runs past the end of an array (no NUL inside it: undefined behaviour). -/
def strcmp : List Nat → List Nat → Option Int
  | a :: as, b :: bs =>
    if a ≠ b then some ((a : Int) - (b : Int))
    else if a = 0 then some 0
    else strcmp as bs
  | _, _ => none

/-! ## The tracee memory reader (`ptrace_get_string_from_tracee`) -/

/-- `EIO` of `<errno.h>`. -/
def EIO : Nat := 5
/-- `EFAULT` of `<errno.h>`. -/
def EFAULT : Nat := 14

/-- What one `ptrace(PTRACE_PEEKDATA, child, a)` leaves behind: the returned
word `tmp` and the value of `errno` after the call (0 on success). -/
structure PeekResult where
  tmp : Nat
  errno : Nat
  deriving DecidableEq, Repr

/-- What `ptrace_get_string_from_tracee` leaves behind: how it ended, the
bytes of the caller's buffer, and the addresses it peeked, in order. -/
structure ReadResult where
  outcome : Outcome Int
  buffer : List Nat
  peeks : List Nat
  deriving DecidableEq, Repr

/-- The `while (byte < PATH_MAX)` loop of `ptrace_get_string_from_tracee`;
`none` when the fuel runs out. -/
def ptrace_get_string_from_tracee_loop (peek : Nat → PeekResult) (addr : Nat) :
    Nat → Nat → List Nat → List Nat → Option ReadResult
  | 0, _, _, _ => none
  | fuel + 1, byte, buffer, peeks =>
    if byte < PATH_MAX then
      let a := (addr + byte) % 2 ^ 64
      let r := peek a
      if r.errno = EFAULT ∨ r.errno = EIO then
        if byte ≠ 0 then some { outcome := .ret 0, buffer := buffer, peeks := peeks ++ [a] }
        else some { outcome := .exit 1, buffer := buffer, peeks := peeks ++ [a] }
      else if r.errno ≠ 0 then
        some { outcome := .ret (-1), buffer := buffer, peeks := peeks ++ [a] }
      else
        ptrace_get_string_from_tracee_loop peek addr fuel (byte + 8)
          (storeWord buffer (byte / 8) r.tmp) (peeks ++ [a])
    else some { outcome := .ret 0, buffer := buffer, peeks := peeks }

/-- `ptrace_get_string_from_tracee(addr, child, buffer)`: `peek` answers the
`PTRACE_PEEKDATA` requests on `child`.  The loop runs at most
`PATH_MAX / 8` times, so the fuel given here is never used up. -/
def ptrace_get_string_from_tracee (peek : Nat → PeekResult) (addr : Nat)
    (buffer : List Nat) : Option ReadResult :=
  ptrace_get_string_from_tracee_loop peek addr (PATH_MAX / 8 + 1) 0
    (memset buffer 0 PATH_MAX) []

/-- The tracee's address space: the byte mapped at each address, `none` where
nothing readable is mapped. -/
abbrev TraceeMemory := Nat → Option Nat

/-- The eight bytes at `a .. a + 7` as a little-endian word; `none` unless all
eight are mapped. -/
def readWord (mem : TraceeMemory) (a : Nat) : Option Nat := do
  let b0 ← mem a
  let b1 ← mem (a + 1)
  let b2 ← mem (a + 2)
  let b3 ← mem (a + 3)
  let b4 ← mem (a + 4)
  let b5 ← mem (a + 5)
  let b6 ← mem (a + 6)
  let b7 ← mem (a + 7)
  pure (b0 % 256 + 256 * (b1 % 256) + 256 ^ 2 * (b2 % 256) + 256 ^ 3 * (b3 % 256)
    + 256 ^ 4 * (b4 % 256) + 256 ^ 5 * (b5 % 256) + 256 ^ 6 * (b6 % 256)
    + 256 ^ 7 * (b7 % 256))

/-- The kernel's answer to `PTRACE_PEEKDATA` on a tracee with memory `mem`:
the request copies one whole word and fails with `EIO` (returning -1) unless
all of its bytes could be read. -/
def peekdata (mem : TraceeMemory) (a : Nat) : PeekResult :=
  match readWord mem a with
  | some w => { tmp := w, errno := 0 }
  | none => { tmp := 2 ^ 64 - 1, errno := EIO }

/-- A NUL-terminated string `s` is stored at `addr`: its bytes are mapped at
`addr, addr + 1, ...`, none of them is NUL, and a NUL byte follows. -/
def storesString (mem : TraceeMemory) (addr : Nat) (s : List Nat) : Prop :=
  (∀ i, ∀ h : i < s.length, mem (addr + i) = some (s.get ⟨i, h⟩)) ∧
  (∀ b ∈ s, 0 < b ∧ b < 256) ∧
  mem (addr + s.length) = some 0

/-- Every byte of the words `0 .. n - 1` (eight bytes each) counted from `addr`
is mapped. -/
def wordsReadable (mem : TraceeMemory) (addr : Nat) (n : Nat) : Prop :=
  ∀ j, j < 8 * n → (mem (addr + j)).isSome = true

/-- A register snapshot at the entry of `mmap(0, 4096, 3, 34, -1, 0)`
(syscall 9), with a return address in `rcx`. -/
def sample_regs : user_regs_struct :=
  { r15 := 0, r14 := 0, r13 := 0, r12 := 0, rbp := 0, rbx := 0, r11 := 0x246,
    r10 := 34, r9 := 0, r8 := 2 ^ 64 - 1, rax := 2 ^ 64 - 38, rcx := 0x401000,
    rdx := 3, rsi := 4096, rdi := 0, orig_rax := 9, rip := 0x401000, cs := 0x33,
    eflags := 0x246, rsp := 0x7ffc00000000, ss := 0x2b, fs_base := 0, gs_base := 0,
    ds := 0, es := 0, fs := 0, gs := 0 }

/-- A tracee with one mapped page, `0x1000 .. 0x1fff`, followed by an unmapped
one.  The page is zero except for its last 16 bytes, which hold
`"/etc/shadow\0abc\0"`: the string `"abc"` ends on the last byte of the page. -/
def page_end_mem : TraceeMemory := fun a =>
  if 4096 ≤ a ∧ a < 8176 then some 0
  else if 8176 ≤ a ∧ a < 8192 then
    some (([47, 101, 116, 99, 47, 115, 104, 97, 100, 111, 119, 0, 97, 98, 99, 0] : List Nat).getD
      (a - 8176) 0)
  else none

/-- A tracee with two mapped pages, `0x1000 .. 0x2fff`, filled with the byte
`'a'`: more than `PATH_MAX` consecutive non-NUL bytes. -/
def long_run_mem : TraceeMemory := fun a =>
  if 4096 ≤ a ∧ a < 12288 then some 97 else none

/-! ## The path-identity check (`ptracer_check_path`) -/

/-- `ptracer_check_path(pid)`.  `exe_link pid` is what
`readlink("/proc/<pid>/exe", ..)` finds: the bytes of the link target, or
`none` when the call fails; `EXECUTABLE_PATH` is the global array;
`stack i` is the byte that the uninitialised local `binary_path` holds at
index `i` on entry.  `readlink` stores at most `PATH_MAX` bytes of the target
and no NUL.  `none`: the `strcmp` ran past the end of an array. -/
def ptracer_check_path (exe_link : Int → Option (List Nat)) (EXECUTABLE_PATH : List Nat)
    (pid : Int) (stack : Nat → Nat) : Option Int :=
  let binary_path := (List.range (PATH_MAX + 1)).map (fun i => stack i % 256)
  let binary_path := memset binary_path (PATH_MAX + 1) 0
  match exe_link pid with
  | none => some (-1)
  | some target =>
    let nbytes := min target.length PATH_MAX
    let binary_path := target.take nbytes ++ binary_path.drop nbytes
    strcmp binary_path EXECUTABLE_PATH

/-! ## The tracer event loop (`ptracer_loop`) -/

/-- `SIGTRAP` of `<signal.h>`. -/
def SIGTRAP : Nat := 5
/-- Event codes and options of `<linux/ptrace.h>`. -/
def PTRACE_EVENT_FORK : Nat := 1
def PTRACE_EVENT_VFORK : Nat := 2
def PTRACE_EVENT_CLONE : Nat := 3
def PTRACE_EVENT_SECCOMP : Nat := 7
def PTRACE_O_TRACEFORK : Nat := 1 <<< PTRACE_EVENT_FORK
def PTRACE_O_TRACEVFORK : Nat := 1 <<< PTRACE_EVENT_VFORK
def PTRACE_O_TRACECLONE : Nat := 1 <<< PTRACE_EVENT_CLONE
def PTRACE_O_TRACEEXEC : Nat := 1 <<< 4
def PTRACE_O_TRACESECCOMP : Nat := 1 <<< PTRACE_EVENT_SECCOMP
def PTRACE_O_EXITKILL : Nat := 1 <<< 20
def PTRACE_O_SUSPEND_SECCOMP : Nat := 1 <<< 21

/-- `WIFEXITED(status)` of `<sys/wait.h>`: `((status) & 0x7f) == 0`. -/
def WIFEXITED (status : Nat) : Bool := (status &&& 0x7f) == 0

/-- `WIFSIGNALED(status)` of `<sys/wait.h>`:
`((signed char) (((status) & 0x7f) + 1) >> 1) > 0`, i.e. the low seven bits are
neither 0 (exited) nor 0x7f (stopped). -/
def WIFSIGNALED (status : Nat) : Bool :=
  (status &&& 0x7f) != 0 && (status &&& 0x7f) != 0x7f

/-- The requests the tracer sends to the kernel, as they appear in
`ptracer_loop` (and the `PTRACE_PEEKDATA` of the memory reader it calls). -/
inductive TracerAction where
  | PTRACE_CONT (pid : Int) (sig : Nat)
  | PTRACE_GETEVENTMSG (pid : Int)
  | PTRACE_GETSIGINFO (pid : Int)
  | PTRACE_GETREGS (pid : Int)
  | PTRACE_SETREGS (pid : Int) (regs : user_regs_struct)
  | PTRACE_SYSCALL (pid : Int)
  | PTRACE_SETOPTIONS (pid : Int) (opts : Nat)
  | PTRACE_PEEKDATA (pid : Int) (addr : Nat)
  | waitpid (pid : Int)
  deriving DecidableEq, Repr

/-- What one return of `waitpid(-1, &status, __WALL)` shows of the traced
family: the returned `pid` (-1 when the call fails), the `status`, and the
state of that task while it is stopped: its registers (`PTRACE_GETREGS`), its
memory (`PTRACE_PEEKDATA`), the target of its `/proc/<pid>/exe` link, the
signal number of `PTRACE_GETSIGINFO`; `stack` is the content of the tracer's
own uninitialised stack arrays at that moment. -/
structure WaitStop where
  pid : Int
  status : Nat
  regs : user_regs_struct
  mem : TraceeMemory
  exe : Option (List Nat)
  si_signo : Nat
  stack : Nat → Nat

/-- How the handling of one seccomp trap ends: `continue` of the outer loop
(also after the stub sequence), `return` from `ptracer_loop`, `exit` of the
tracer, or undefined behaviour (a `strcmp` past the end of an array, or the
reader out of fuel). -/
inductive StageEnd where
  | next
  | returned (code : Int)
  | exited (code : Nat)
  | undefined
  deriving DecidableEq, Repr

/-- Lines 391-415 of `ptracer_loop`: the executable-identity check and the
action (`return 0` in crash mode, the two-phase register rewrite otherwise).
`pre` holds the requests already sent for this trap. -/
def ptracer_loop_act (flags : Nat) (f_errno : Int) (EXECUTABLE_PATH : List Nat)
    (ev : WaitStop) (pre : List TracerAction) : List TracerAction × StageEnd :=
  match (if ISSET flags DO_CHECKPATH then
           ptracer_check_path (fun _ => ev.exe) EXECUTABLE_PATH ev.pid ev.stack
         else some 0) with
  | none => (pre, .undefined)
  | some c =>
    if ISSET flags DO_CHECKPATH && c != 0 then
      (pre ++ [.PTRACE_SETOPTIONS ev.pid PTRACE_O_SUSPEND_SECCOMP, .PTRACE_CONT ev.pid 0], .next)
    else if ISSET flags DO_CRASH then
      (pre, .returned 0)
    else
      let regs1 := { ev.regs with orig_rax := toU64 (-1) }
      let regs2 := { regs1 with rax := toU64 f_errno }
      (pre ++ [.PTRACE_SETREGS ev.pid regs1, .PTRACE_SYSCALL ev.pid, .waitpid ev.pid,
               .PTRACE_SETREGS ev.pid regs2, .PTRACE_CONT ev.pid 0], .next)

/-- Lines 375-388 of `ptracer_loop`: the `else if (ISSET(flags, DO_PATHSTUB))`
branch, which reads the string behind the argument into the local
`char path_buffer[PATH_MAX]` and compares it with `path`; the return value of
the reader is not looked at. -/
def ptracer_loop_pathstub (argn : Int) (path : List Nat) (flags : Nat) (f_errno : Int)
    (EXECUTABLE_PATH : List Nat) (ev : WaitStop) (pre : List TracerAction) :
    List TracerAction × StageEnd :=
  match ptrace_get_syscall_args argn ev.regs with
  | .exit c => (pre, .exited c)
  | .ret a =>
    let path_buffer := (List.range PATH_MAX).map (fun i => ev.stack i % 256)
    match ptrace_get_string_from_tracee (peekdata ev.mem) (toU64 a) path_buffer with
    | none => (pre, .undefined)
    | some r =>
      let pre := pre ++ r.peeks.map (fun p => TracerAction.PTRACE_PEEKDATA ev.pid p)
      match r.outcome with
      | .exit c => (pre, .exited c)
      | .ret _ =>
        match strcmp r.buffer path with
        | none => (pre, .undefined)
        | some c =>
          if c ≠ 0 then (pre ++ [.PTRACE_CONT ev.pid 0], .next)
          else ptracer_loop_act flags f_errno EXECUTABLE_PATH ev pre

/-- Lines 357-415 of `ptracer_loop`: the handling of one seccomp trap, from
`PTRACE_GETREGS` to the `continue`, `return` or exit that ends it. -/
def ptracer_loop_trap (sys argn argv : Int) (path : List Nat) (flags : Nat) (f_errno : Int)
    (EXECUTABLE_PATH : List Nat) (ev : WaitStop) : List TracerAction × StageEnd :=
  let pre := [TracerAction.PTRACE_GETREGS ev.pid]
  let syscall := toLong ev.regs.orig_rax
  if ISSET flags DO_PARTIALSTUB || ISSET flags DO_PATHSTUB then
    if syscall ≠ sys then (pre ++ [.PTRACE_CONT ev.pid 0], .next)
    else if ISSET flags DO_PARTIALSTUB then
      match ptrace_get_syscall_args argn ev.regs with
      | .exit c => (pre, .exited c)
      | .ret a =>
        if a ≠ argv then (pre ++ [.PTRACE_CONT ev.pid 0], .next)
        else if ISSET flags DO_PATHSTUB then
          ptracer_loop_pathstub argn path flags f_errno EXECUTABLE_PATH ev pre
        else ptracer_loop_act flags f_errno EXECUTABLE_PATH ev pre
    else if ISSET flags DO_PATHSTUB then
      ptracer_loop_pathstub argn path flags f_errno EXECUTABLE_PATH ev pre
    else ptracer_loop_act flags f_errno EXECUTABLE_PATH ev pre
  else ptracer_loop_act flags f_errno EXECUTABLE_PATH ev pre

/-- How `ptracer_loop` ends on a finite sequence of wait results: it returns,
the tracer exits, it is left blocked in `waitpid` when the sequence is used up,
or it runs into undefined behaviour. -/
inductive LoopEnd where
  | returned (code : Int)
  | exited (code : Nat)
  | waiting
  | undefined
  deriving DecidableEq, Repr

/-- What `ptracer_loop` has done when it ends: the requests sent, the value of
`number_of_children`, and the way it ended. -/
structure LoopResult where
  actions : List TracerAction
  number_of_children : Int
  ending : LoopEnd
  deriving DecidableEq, Repr

/-- The `while (1)` loops of `ptracer_loop` (lines 312-416), one wait result
per step; `n` is `number_of_children`, `acts` the requests sent so far.  The
`waitpid(pid, NULL, __WALL)` of the stub sequence is a request of its own and
takes nothing from the sequence. -/
def ptracer_loop_run (sys argn argv : Int) (path : List Nat) (flags : Nat) (f_errno : Int)
    (EXECUTABLE_PATH : List Nat) : List WaitStop → Int → List TracerAction → LoopResult
  | [], n, acts => { actions := acts, number_of_children := n, ending := .waiting }
  | ev :: rest, n, acts =>
    if ev.pid = -1 then { actions := acts, number_of_children := n, ending := .returned (-1) }
    else
      let n := if WIFEXITED ev.status then n - 1 else n
      if n = 0 then { actions := acts, number_of_children := n, ending := .returned 0 }
      else if ev.status >>> 8 = (SIGTRAP ||| (PTRACE_EVENT_SECCOMP <<< 8)) then
        match ptracer_loop_trap sys argn argv path flags f_errno EXECUTABLE_PATH ev with
        | (a, .next) =>
          ptracer_loop_run sys argn argv path flags f_errno EXECUTABLE_PATH rest n (acts ++ a)
        | (a, .returned c) =>
          { actions := acts ++ a, number_of_children := n, ending := .returned c }
        | (a, .exited c) =>
          { actions := acts ++ a, number_of_children := n, ending := .exited c }
        | (a, .undefined) =>
          { actions := acts ++ a, number_of_children := n, ending := .undefined }
      else if ev.status >>> 8 = (SIGTRAP ||| (PTRACE_EVENT_FORK <<< 8)) ∨
          ev.status >>> 8 = (SIGTRAP ||| (PTRACE_EVENT_VFORK <<< 8)) ∨
          ev.status >>> 8 = (SIGTRAP ||| (PTRACE_EVENT_CLONE <<< 8)) then
        ptracer_loop_run sys argn argv path flags f_errno EXECUTABLE_PATH rest (n + 1)
          (acts ++ [.PTRACE_GETEVENTMSG ev.pid, .PTRACE_CONT ev.pid 0])
      else
        ptracer_loop_run sys argn argv path flags f_errno EXECUTABLE_PATH rest n
          (acts ++ [.PTRACE_GETSIGINFO ev.pid, .PTRACE_CONT ev.pid ev.si_signo])

/-- The flag check at the head of `ptracer_loop` (lines 299-306): true when
the function reports a bug and returns -1. -/
def ptracer_loop_invalid_flags (flags : Nat) : Bool :=
  !ISSET flags DO_PTRACE ||
  (!ISSET flags DO_PARTIALSTUB && !ISSET flags DO_CHECKPATH && !ISSET flags DO_PATHSTUB) ||
  (!ISSET flags DO_CRASH && !ISSET flags DO_ERRNO) ||
  (ISSET flags DO_CRASH && ISSET flags DO_ERRNO)

/-- `ptracer_loop(sys, argn, argv, path, flags, f_errno)` on the wait results
`events`; `number_of_children` starts at 1. -/
def ptracer_loop (sys argn argv : Int) (path : List Nat) (flags : Nat) (f_errno : Int)
    (EXECUTABLE_PATH : List Nat) (events : List WaitStop) : LoopResult :=
  if ptracer_loop_invalid_flags flags then
    { actions := [], number_of_children := 1, ending := .returned (-1) }
  else ptracer_loop_run sys argn argv path flags f_errno EXECUTABLE_PATH events 1 []

/-- A seccomp stop of task 100 with the given registers and memory:
`status = ((SIGTRAP | (PTRACE_EVENT_SECCOMP << 8)) << 8) | 0x7f`. -/
def seccomp_stop (regs : user_regs_struct) (mem : TraceeMemory) : WaitStop :=
  { pid := 100, status := 0x7057f, regs := regs, mem := mem, exe := none, si_signo := 5,
    stack := fun _ => 0 }

/-- The wait result for task 100 killed by `SIGKILL`: `status = 9`. -/
def killed_stop : WaitStop :=
  { pid := 100, status := 9, regs := sample_regs, mem := fun _ => none, exe := none,
    si_signo := 0, stack := fun _ => 0 }

/-- A failed `waitpid` (`ECHILD`: no task left to wait for). -/
def failed_wait : WaitStop :=
  { pid := -1, status := 0, regs := sample_regs, mem := fun _ => none, exe := none,
    si_signo := 0, stack := fun _ => 0 }

/-! ## The launcher (`main`) -/

/-- The `case 'p'` of the option loop of `main` (lines 515-536).
`optarg_val` is `strtol(optarg, NULL, 0)`; `next_arg` is
`strtol(argv[optind], NULL, 0)` when a further argument not starting with `-`
is present.  Both results are stored in `int` variables.  Returns the new
`flags`, `ptrace_pos` and `ptrace_val`. -/
def main_case_p (flags : Nat) (optarg_val : Int) (next_arg : Option Int) :
    Outcome (Nat × Int × Int) :=
  let flags := SETF (SETF flags DO_PTRACE) DO_PARTIALSTUB
  let ptrace_pos := toInt32 optarg_val
  if ptrace_pos < 0 ∨ ptrace_pos > 5 then .exit EXIT_FAILURE
  else
    match next_arg with
    | some v => .ret (flags, ptrace_pos, toInt32 v)
    | none => .exit EXIT_FAILURE

/-- What the launcher does that can be seen from outside, in order: messages,
system calls, the tracer loop with its result, and `exit`. -/
inductive LauncherAction where
  | error_not_enough_syscalls
  | error_several_syscalls
  | perror (what : String)
  | realpath
  | fork
  | waitpid (pid : Int)
  | PTRACE_SETOPTIONS (pid : Int) (opts : Nat)
  | PTRACE_CONT (pid : Int)
  | ptracer_loop (result : LoopResult)
  | PTRACE_TRACEME
  | prctl_no_new_privs
  | seccomp (prog : List sock_filter)
  | execv
  | undefined
  | exit (code : Nat)
  deriving DecidableEq, Repr

/-- The answers of the system to the launcher: the return value of `fork`
(-1 failure, 0 in the child, the child's pid in the parent), the wait results
seen by the tracer, the return values of `prctl` and `seccomp` (0 on success),
whether `execv` returns (it does only on failure), the path `realpath` writes,
and the `int` found at `syscalls[0]` when no syscall number was stored.
The `errno` of `main` (line 471, declared with `<errno.h>` included) is the
`errno` of the C library, which library calls may overwrite after the option
loop has stored the `-e` value in it: `errno_tracer` is `some v` when the last
call that stored into `errno` before line 647 (`strtol`, `malloc`, `realpath`,
`fprintf`, `fork`, `waitpid`, `ptrace`) left `v` there, and `none` when none of
them touched it; `errno_install` is the same for line 661 (`strtol`, `malloc`,
`realpath`, `fprintf`, `fork`, `ptrace`, `prctl`). -/
structure LaunchEnv where
  fork_ret : Int
  events : List WaitStop
  prctl_ret : Int
  seccomp_ret : Int
  execv_fails : Bool
  realpath : List Nat
  heap : Int
  errno_tracer : Option Int := none
  errno_install : Option Int := none

/-- The child side (or the non-tracer path) of `main`, lines 656-667;
`f_errno` is the value the option loop left in `errno`, and the value read at
line 661 is the one a later library call stored there, if any did. -/
def main_install (syscalls : List Int) (flags : Nat) (f_errno : Int) (env : LaunchEnv) :
    List LauncherAction :=
  if env.prctl_ret ≠ 0 then [.prctl_no_new_privs, .perror "prctl", .exit EXIT_FAILURE]
  else
    match install_filter syscalls flags (env.errno_install.getD f_errno) with
    | none => [.prctl_no_new_privs, .exit EXIT_FAILURE]
    | some prog =>
      if env.seccomp_ret ≠ 0 then
        [.prctl_no_new_privs, .seccomp prog, .perror "seccomp", .exit EXIT_FAILURE]
      else if env.execv_fails then
        [.prctl_no_new_privs, .seccomp prog, .execv, .perror "execv", .exit EXIT_FAILURE]
      else [.prctl_no_new_privs, .seccomp prog, .execv]

/-- `main` after the option loop (lines 595-668).  `argc`, `optind`, `sysnum`,
`flags`, `ptrace_pos`, `ptrace_val`, `ptrace_str` and `EXECUTABLE_PATH` hold
the values the option loop left, `f_errno` the value it left in the C
library's `errno` (where `case 'e'` stores the `-e` number);
`argv_nums` are the `strtol` values of `argv[optind], argv[optind + 1], ...`.
The value of `errno` read at lines 647 and 661 is `f_errno` unless a library
call in between has stored another value (`LaunchEnv`). -/
def main (argc optind sysnum : Int) (argv_nums : List Int) (flags : Nat)
    (ptrace_pos ptrace_val : Int) (ptrace_str : List Nat) (f_errno : Int)
    (EXECUTABLE_PATH : List Nat) (env : LaunchEnv) : List LauncherAction :=
  if argc < optind + sysnum + 1 then [.error_not_enough_syscalls, .exit EXIT_FAILURE]
  else if sysnum < 0 then [.undefined]
  else
    let syscalls := (argv_nums.take sysnum.toNat).map toInt32
    let resolve := ISSET flags DO_CHECKPATH && EXECUTABLE_PATH.head? == some 0
    let EXECUTABLE_PATH := if resolve then env.realpath else EXECUTABLE_PATH
    let pre : List LauncherAction := if resolve then [.realpath] else []
    if ISSET flags DO_PTRACE then
      if env.fork_ret = -1 then pre ++ [.fork, .perror "fork", .exit EXIT_FAILURE]
      else if env.fork_ret ≠ 0 then
        let pid := env.fork_ret
        let pre := pre ++ [.fork, .waitpid pid,
          .PTRACE_SETOPTIONS pid (PTRACE_O_TRACESECCOMP ||| PTRACE_O_EXITKILL |||
            PTRACE_O_TRACECLONE ||| PTRACE_O_TRACEFORK ||| PTRACE_O_TRACEVFORK |||
            PTRACE_O_TRACEEXEC),
          .PTRACE_CONT pid]
        if sysnum > 1 then pre ++ [.error_several_syscalls, .exit EXIT_FAILURE]
        else
          let r := ptracer_loop (syscalls.getD 0 env.heap) ptrace_pos ptrace_val ptrace_str
            flags (env.errno_tracer.getD f_errno) EXECUTABLE_PATH env.events
          match r.ending with
          | .returned _ => pre ++ [.ptracer_loop r, .exit EXIT_SUCCESS]
          | .exited c => pre ++ [.ptracer_loop r, .exit c]
          | .waiting => pre ++ [.ptracer_loop r]
          | .undefined => pre ++ [.ptracer_loop r, .undefined]
      else
        pre ++ [.fork, .PTRACE_TRACEME] ++ main_install syscalls flags f_errno env
    else pre ++ main_install syscalls flags f_errno env

/-- The wait result for task 4242 after a normal `exit(0)`: `status = 0`. -/
def exited_stop : WaitStop :=
  { pid := 4242, status := 0, regs := sample_regs, mem := fun _ => none, exe := none,
    si_signo := 0, stack := fun _ => 0 }

/-- The system seen from the tracer side of `fork` (child pid 4242), the
child exiting normally as the first wait result. -/
def parent_env : LaunchEnv :=
  { fork_ret := 4242, events := [exited_stop], prctl_ret := 0, seccomp_ret := 0,
    execv_fails := false, realpath := [], heap := 0 }

/-- The system seen from the tracer side of `fork` (child pid 4242) when the
first `waitpid(-1, ..)` of the tracer loop fails. -/
def failing_wait_env : LaunchEnv :=
  { fork_ret := 4242, events := [failed_wait], prctl_ret := 0, seccomp_ret := 0,
    execv_fails := false, realpath := [], heap := 0 }

/-- The register files written back by `PTRACE_SETREGS` in a sequence of
requests, in order. -/
def register_writes : List TracerAction → List user_regs_struct
  | [] => []
  | .PTRACE_SETREGS _ regs :: rest => regs :: register_writes rest
  | _ :: rest => register_writes rest

/-- A seccomp stop of task 100, which runs `/bin/a`, at the entry of
`open("/etc/shadow", ..)` (syscall 2) with the path stored at `8176` in
`page_end_mem`. -/
def shadow_open_stop : WaitStop :=
  { pid := 100, status := 0x7057f, regs := { sample_regs with rdi := 8176, orig_rax := 2 },
    mem := page_end_mem, exe := some [47, 98, 105, 110, 47, 97], si_signo := 5,
    stack := fun _ => 0 }

/-- The system on the non-tracer path when a library call after the option
loop (a `strtol` out of range) has left `ERANGE` (34) in `errno`. -/
def erange_env : LaunchEnv :=
  { fork_ret := 0, events := [], prctl_ret := 0, seccomp_ret := 0, execv_fails := false,
    realpath := [], heap := 0, errno_install := some 34 }

/-! # Theorems -/

/-! ## The classifier program -/

theorem toU32_natCast {n : Nat} (h : n < 2 ^ 32) : toU32 (n : Int) = n := by
  unfold toU32
  have : ((n : Int) % 2 ^ 32) = (n : Int) := Int.emod_eq_of_lt (by omega) (by exact_mod_cast h)
  rw [this]; simp

theorem rule_verdict_lt (flags : Nat) (f_errno : Int) : rule_verdict flags f_errno < 2 ^ 32 := by
  unfold rule_verdict
  split
  · decide
  · split
    · apply Nat.or_lt_two_pow
      · decide
      · exact lt_of_le_of_lt Nat.and_le_right (by decide)
    · decide

/-- The pair emitted for syscall `s`, written with `rule_verdict`. -/
theorem filter_sys_i_eq (flags : Nat) (f_errno : Int) (s : Int)
    (hflags : ISSET flags DO_PTRACE = true ∨ ISSET flags DO_ERRNO = true ∨
      ISSET flags DO_CRASH = true) :
    filter_sys_i flags f_errno s =
      some [BPF_JUMP (BPF_JMP ||| BPF_JEQ ||| BPF_K) s 0 1,
            BPF_STMT (BPF_RET ||| BPF_K) (rule_verdict flags f_errno : Nat)] := by
  unfold filter_sys_i rule_verdict
  by_cases h1 : ISSET flags DO_PTRACE = true
  · simp [h1]
  · by_cases h2 : ISSET flags DO_ERRNO = true
    · simp [h1, h2, SECCOMP_RET_DATA]
    · have h3 : ISSET flags DO_CRASH = true := by tauto
      simp [h1, h2, h3]

theorem jeq_code (k jt jf : Int) :
    (BPF_JUMP (BPF_JMP ||| BPF_JEQ ||| BPF_K) k jt jf).code = 0x15 := rfl

theorem jgt_code (k jt jf : Int) :
    (BPF_JUMP (BPF_JMP ||| BPF_JGT ||| BPF_K) k jt jf).code = 0x25 := rfl

theorem ret_code (k : Int) : (BPF_STMT (BPF_RET ||| BPF_K) k).code = 0x06 := rfl

theorem ld_code (k : Int) : (BPF_STMT (BPF_LD ||| BPF_W ||| BPF_ABS) k).code = 0x20 := rfl

/-- One step of the machine on a `BPF_RET | BPF_K` instruction. -/
theorem bpf_run_ret (prog : List sock_filter) (d : seccomp_data) (fuel pc A : Nat) (k : Int)
    (h : prog[pc]? = some (BPF_STMT (BPF_RET ||| BPF_K) k)) :
    bpf_run prog d (fuel + 1) pc A = some (toU32 k) := by
  rw [bpf_run, h]
  simp only [ret_code]
  rfl

/-- One step of the machine on a `BPF_JMP | BPF_JEQ | BPF_K` instruction. -/
theorem bpf_run_jeq (prog : List sock_filter) (d : seccomp_data) (fuel pc A : Nat)
    (k jt jf : Int)
    (h : prog[pc]? = some (BPF_JUMP (BPF_JMP ||| BPF_JEQ ||| BPF_K) k jt jf)) :
    bpf_run prog d (fuel + 1) pc A =
      bpf_run prog d fuel (pc + 1 + (if A = toU32 k then toU8 jt else toU8 jf)) A := by
  rw [bpf_run, h]
  simp only [jeq_code]
  rfl

/-- One step of the machine on a `BPF_JMP | BPF_JGT | BPF_K` instruction. -/
theorem bpf_run_jgt (prog : List sock_filter) (d : seccomp_data) (fuel pc A : Nat)
    (k jt jf : Int)
    (h : prog[pc]? = some (BPF_JUMP (BPF_JMP ||| BPF_JGT ||| BPF_K) k jt jf)) :
    bpf_run prog d (fuel + 1) pc A =
      bpf_run prog d fuel (pc + 1 + (if A > toU32 k then toU8 jt else toU8 jf)) A := by
  rw [bpf_run, h]
  simp only [jgt_code]
  rfl

/-- One step of the machine on a `BPF_LD | BPF_W | BPF_ABS` instruction. -/
theorem bpf_run_ld (prog : List sock_filter) (d : seccomp_data) (fuel pc A : Nat) (k : Int)
    (v : Nat) (h : prog[pc]? = some (BPF_STMT (BPF_LD ||| BPF_W ||| BPF_ABS) k))
    (hv : seccomp_load d (toU32 k) = some v) :
    bpf_run prog d (fuel + 1) pc A = bpf_run prog d fuel (pc + 1) v := by
  rw [bpf_run, h]
  simp only [ld_code]
  have : (BPF_STMT (BPF_LD ||| BPF_W ||| BPF_ABS) k).k = toU32 k := rfl
  rw [this, hv]
  rfl

theorem getElem?_append_head {α : Type} (pre : List α) (x : α) (rest : List α) :
    (pre ++ x :: rest)[pre.length]? = some x := by
  rw [List.getElem?_append_right (le_refl _)]
  simp

theorem getElem?_append_second {α : Type} (pre : List α) (x y : α) (rest : List α) :
    (pre ++ x :: y :: rest)[pre.length + 1]? = some y := by
  rw [List.getElem?_append_right (by omega)]
  simp

/-- Running the rule pairs: from the first pair with the syscall number in the
accumulator, the machine returns the rule verdict when the number matches the
`k` field of some pair and reaches the terminal allow otherwise. -/
theorem bpf_run_rules (flags : Nat) (f_errno : Int) (d : seccomp_data)
    (hflags : ISSET flags DO_PTRACE = true ∨ ISSET flags DO_ERRNO = true ∨
      ISSET flags DO_CRASH = true) :
    ∀ (l : List Int) (pre rules : List sock_filter) (fuel A : Nat),
      filter_rules flags f_errno l = some rules → 2 * l.length + 1 ≤ fuel →
      bpf_run (pre ++ rules ++ filter_end) d fuel pre.length A =
        some (if ∃ s ∈ l, A = toU32 s then rule_verdict flags f_errno
              else SECCOMP_RET_ALLOW) := by
  intro l
  induction l with
  | nil =>
    intro pre rules fuel A hr hfuel
    simp only [filter_rules, Option.some.injEq] at hr
    subst hr
    obtain ⟨f, rfl⟩ : ∃ f, fuel = f + 1 := ⟨fuel - 1, by omega⟩
    have hget : (pre ++ [] ++ filter_end)[pre.length]? =
        some (BPF_STMT (BPF_RET ||| BPF_K) (SECCOMP_RET_ALLOW : Nat)) := by
      simp only [filter_end, List.append_nil]
      exact getElem?_append_head _ _ _
    rw [bpf_run_ret _ _ _ _ _ _ hget, toU32_natCast (by decide)]
    simp
  | cons s rest ih =>
    intro pre rules fuel A hr hfuel
    rw [filter_rules, filter_sys_i_eq flags f_errno s hflags] at hr
    cases htl : filter_rules flags f_errno rest with
    | none => simp [htl] at hr
    | some tl =>
      simp only [htl, Option.some.injEq] at hr
      subst hr
      simp only [List.length_cons] at hfuel
      obtain ⟨f, rfl⟩ : ∃ f, fuel = f + 2 := ⟨fuel - 2, by omega⟩
      have hget0 : (pre ++ ([BPF_JUMP (BPF_JMP ||| BPF_JEQ ||| BPF_K) s 0 1,
            BPF_STMT (BPF_RET ||| BPF_K) (rule_verdict flags f_errno : Nat)] ++ tl) ++
            filter_end)[pre.length]? =
          some (BPF_JUMP (BPF_JMP ||| BPF_JEQ ||| BPF_K) s 0 1) := by
        simp only [List.append_assoc, List.cons_append, List.nil_append]
        exact getElem?_append_head _ _ _
      have hget1 : (pre ++ ([BPF_JUMP (BPF_JMP ||| BPF_JEQ ||| BPF_K) s 0 1,
            BPF_STMT (BPF_RET ||| BPF_K) (rule_verdict flags f_errno : Nat)] ++ tl) ++
            filter_end)[pre.length + 1]? =
          some (BPF_STMT (BPF_RET ||| BPF_K) (rule_verdict flags f_errno : Nat)) := by
        simp only [List.append_assoc, List.cons_append, List.nil_append]
        exact getElem?_append_second _ _ _ _
      rw [bpf_run_jeq _ _ _ _ _ _ _ _ hget0]
      have h0 : toU8 0 = 0 := rfl
      have h1 : toU8 1 = 1 := rfl
      rw [h0, h1]
      by_cases hA : A = toU32 s
      · rw [if_pos hA, Nat.add_zero, bpf_run_ret _ _ _ _ _ _ hget1,
          toU32_natCast (rule_verdict_lt _ _)]
        have : ∃ s_1 ∈ s :: rest, A = toU32 s_1 := ⟨s, List.mem_cons_self _ _, hA⟩
        rw [if_pos this]
      · rw [if_neg hA]
        have hlen : pre.length + 1 + 1 =
            (pre ++ [BPF_JUMP (BPF_JMP ||| BPF_JEQ ||| BPF_K) s 0 1,
              BPF_STMT (BPF_RET ||| BPF_K) (rule_verdict flags f_errno : Nat)]).length := by
          simp
        have hprog : pre ++ ([BPF_JUMP (BPF_JMP ||| BPF_JEQ ||| BPF_K) s 0 1,
            BPF_STMT (BPF_RET ||| BPF_K) (rule_verdict flags f_errno : Nat)] ++ tl) ++
            filter_end =
            (pre ++ [BPF_JUMP (BPF_JMP ||| BPF_JEQ ||| BPF_K) s 0 1,
              BPF_STMT (BPF_RET ||| BPF_K) (rule_verdict flags f_errno : Nat)]) ++ tl ++
            filter_end := by
          simp
        rw [hlen, hprog, ih _ tl (f + 1) A htl (by omega)]
        congr 1
        have : (∃ s_1 ∈ s :: rest, A = toU32 s_1) ↔ ∃ s_1 ∈ rest, A = toU32 s_1 := by
          simp [hA]
        simp only [this]

/-- A syscall number below the x32 bit equals the `k` field made from a C
`int` exactly when it equals that `int`. -/
theorem toU32_eq_iff (nr : Nat) (s : Int) (hnr : nr ≤ 0x3fffffff)
    (hs : -2 ^ 31 ≤ s ∧ s < 2 ^ 31) : nr = toU32 s ↔ (nr : Int) = s := by
  unfold toU32
  constructor
  · intro h
    have h2 : (nr : Int) = s % 2 ^ 32 := by
      rw [h]; exact Int.toNat_of_nonneg (Int.emod_nonneg s (by decide : (2 ^ 32 : Int) ≠ 0))
    omega
  · intro h
    subst h
    rw [Int.emod_eq_of_lt (by omega) (by omega)]
    simp

theorem filter_rules_length (flags : Nat) (f_errno : Int) :
    ∀ (l : List Int) (rules : List sock_filter),
      filter_rules flags f_errno l = some rules → rules.length = 2 * l.length := by
  intro l
  induction l with
  | nil => intro rules h; simp [filter_rules] at h; simp [← h]
  | cons s rest ih =>
    intro rules h
    rw [filter_rules] at h
    cases hp : filter_sys_i flags f_errno s with
    | none => simp [hp] at h
    | some pair =>
      cases htl : filter_rules flags f_errno rest with
      | none => simp [hp, htl] at h
      | some tl =>
        simp only [hp, htl, Option.some.injEq] at h
        have hpl : pair.length = 2 := by
          unfold filter_sys_i at hp
          split at hp
          · simp at hp; simp [← hp]
          · split at hp
            · simp at hp; simp [← hp]
            · split at hp
              · simp at hp; simp [← hp]
              · simp at hp
        rw [← h, List.length_append, hpl, ih tl htl, List.length_cons]
        omega

theorem filter_rules_some (flags : Nat) (f_errno : Int)
    (hflags : ISSET flags DO_PTRACE = true ∨ ISSET flags DO_ERRNO = true ∨
      ISSET flags DO_CRASH = true) :
    ∀ l : List Int, ∃ rules, filter_rules flags f_errno l = some rules := by
  intro l
  induction l with
  | nil => exact ⟨[], rfl⟩
  | cons s rest ih =>
    obtain ⟨tl, htl⟩ := ih
    exact ⟨_, by rw [filter_rules, filter_sys_i_eq flags f_errno s hflags, htl]⟩

/-- The first four instructions on an x86-64 record with a syscall number
below the x32 bit: both guards fall through to instruction 4 with the syscall
number in the accumulator. -/
theorem bpf_run_base (num : Nat) (rest : List sock_filter) (d : seccomp_data) (fuel : Nat)
    (harch : d.arch = AUDIT_ARCH_X86_64) (hnr : d.nr ≤ 0x3fffffff) :
    bpf_run (filter_base num ++ rest) d (fuel + 4) 0 0 =
      bpf_run (filter_base num ++ rest) d fuel 4 d.nr := by
  have hl0 : seccomp_load d (toU32 (offsetof_arch : Nat)) = some AUDIT_ARCH_X86_64 := by
    have : toU32 (offsetof_arch : Nat) = 4 := rfl
    rw [this]
    simp [seccomp_load, harch, AUDIT_ARCH_X86_64]
  have hl2 : seccomp_load d (toU32 (offsetof_nr : Nat)) = some d.nr := by
    have : toU32 (offsetof_nr : Nat) = 0 := rfl
    rw [this]
    simp only [seccomp_load]
    have : d.nr % 2 ^ 32 = d.nr := Nat.mod_eq_of_lt (by omega)
    rw [this]
    simp
  rw [bpf_run_ld _ _ (fuel + 3) 0 0 _ _ (by rfl) hl0]
  rw [bpf_run_jeq _ _ (fuel + 2) 1 _ _ _ _ (by rfl)]
  have hk : toU32 (AUDIT_ARCH_X86_64 : Nat) = AUDIT_ARCH_X86_64 := rfl
  have h0 : toU8 0 = 0 := rfl
  rw [hk, if_pos rfl, h0]
  rw [bpf_run_ld _ _ (fuel + 1) 2 _ _ _ (by rfl) hl2]
  have hget3 : (filter_base num ++ rest)[3]? =
      some (BPF_JUMP (BPF_JMP ||| BPF_JGT ||| BPF_K) ((X32_SYSCALL_BIT - 1 : Nat) : Int)
        (1 + 2 * (num : Int)) 0) := by
    simp [filter_base]
  rw [bpf_run_jgt _ _ fuel 3 _ _ _ _ hget3]
  have hk2 : toU32 ((X32_SYSCALL_BIT - 1 : Nat) : Int) = 0x3fffffff := rfl
  rw [hk2, if_neg (by omega), h0]

/-- C1: on an x86-64 record whose syscall number is at most `0x3fffffff`, the
program built by `install_filter` returns the rule verdict (`SECCOMP_RET_TRACE`
with `DO_PTRACE`, else `SECCOMP_RET_ERRNO | (e & 0xffff)` with `DO_ERRNO`, else
`SECCOMP_RET_KILL_PROCESS`) when the number is one of the configured syscalls
and `SECCOMP_RET_ALLOW` when it is none of them. -/
theorem install_filter_verdict (syscalls : List Int) (flags : Nat) (f_errno : Int)
    (d : seccomp_data)
    (hint : ∀ s ∈ syscalls, -2 ^ 31 ≤ s ∧ s < 2 ^ 31)
    (hflags : ISSET flags DO_PTRACE = true ∨ ISSET flags DO_ERRNO = true ∨
      ISSET flags DO_CRASH = true)
    (harch : d.arch = AUDIT_ARCH_X86_64) (hnr : d.nr ≤ 0x3fffffff) :
    ∃ prog, install_filter syscalls flags f_errno = some prog ∧
      seccomp_run prog d =
        some (if (d.nr : Int) ∈ syscalls then
                (if ISSET flags DO_PTRACE then SECCOMP_RET_TRACE
                 else if ISSET flags DO_ERRNO then
                   SECCOMP_RET_ERRNO ||| (toU32 f_errno &&& 0xffff)
                 else SECCOMP_RET_KILL_PROCESS)
              else SECCOMP_RET_ALLOW) := by
  obtain ⟨rules, hrules⟩ := filter_rules_some flags f_errno hflags syscalls
  refine ⟨filter_base syscalls.length ++ rules ++ filter_end, ?_, ?_⟩
  · rw [install_filter, hrules]
  · have hlen : (filter_base syscalls.length ++ rules ++ filter_end).length =
        (2 * syscalls.length + 2) + 4 := by
      simp [filter_base, filter_end, filter_rules_length flags f_errno syscalls rules hrules]
    unfold seccomp_run
    rw [hlen, List.append_assoc, bpf_run_base _ _ _ _ harch hnr, ← List.append_assoc]
    have h4 : (4 : Nat) = (filter_base syscalls.length).length := rfl
    rw [h4, bpf_run_rules flags f_errno d hflags syscalls _ rules _ _ hrules (by omega)]
    have hmem : (∃ s ∈ syscalls, d.nr = toU32 s) ↔ (d.nr : Int) ∈ syscalls := by
      constructor
      · rintro ⟨s, hs, he⟩
        rw [(toU32_eq_iff d.nr s hnr (hint s hs)).1 he]
        exact hs
      · intro h
        exact ⟨_, h, (toU32_eq_iff d.nr _ hnr (hint _ h)).2 rfl⟩
    simp only [hmem, rule_verdict]

/-- C1 at a concrete input: `read`, `write`, `open` stubbed with errno 38, and
a `write` (syscall 1) arriving through the x86-64 entry point. -/
theorem install_filter_verdict_witness :
    ∃ prog, install_filter [0, 1, 2] DO_ERRNO 38 = some prog ∧
      seccomp_run prog { nr := 1, arch := AUDIT_ARCH_X86_64 } =
        some (if ((1 : Nat) : Int) ∈ ([0, 1, 2] : List Int) then
                (if ISSET DO_ERRNO DO_PTRACE then SECCOMP_RET_TRACE
                 else if ISSET DO_ERRNO DO_ERRNO then
                   SECCOMP_RET_ERRNO ||| (toU32 38 &&& 0xffff)
                 else SECCOMP_RET_KILL_PROCESS)
              else SECCOMP_RET_ALLOW) :=
  install_filter_verdict [0, 1, 2] DO_ERRNO 38 { nr := 1, arch := AUDIT_ARCH_X86_64 }
    (by decide) (by decide) rfl (by decide)

/-- With at most 126 configured syscalls the two guard displacements fit their
8-bit fields, and both guards reach the terminal kill: a record of another
architecture, or one with an x32 syscall number, is answered with
`SECCOMP_RET_KILL_PROCESS`. -/
theorem install_filter_guards_small (syscalls : List Int) (flags : Nat) (f_errno : Int)
    (d : seccomp_data)
    (hflags : ISSET flags DO_PTRACE = true ∨ ISSET flags DO_ERRNO = true ∨
      ISSET flags DO_CRASH = true)
    (hnum : syscalls.length ≤ 126)
    (ha : d.arch < 2 ^ 32) (hn : d.nr < 2 ^ 32)
    (hd : d.arch ≠ AUDIT_ARCH_X86_64 ∨ d.nr > 0x3fffffff) :
    ∃ prog, install_filter syscalls flags f_errno = some prog ∧
      seccomp_run prog d = some SECCOMP_RET_KILL_PROCESS := by
  obtain ⟨rules, hrules⟩ := filter_rules_some flags f_errno hflags syscalls
  have hrl := filter_rules_length flags f_errno syscalls rules hrules
  refine ⟨filter_base syscalls.length ++ rules ++ filter_end, ?_, ?_⟩
  · rw [install_filter, hrules]
  · have hlen : (filter_base syscalls.length ++ rules ++ filter_end).length =
        (2 * syscalls.length + 2) + 4 := by
      simp [filter_base, filter_end, hrl]
    have hkill : (filter_base syscalls.length ++ rules ++ filter_end)[5 + 2 * syscalls.length]? =
        some (BPF_STMT (BPF_RET ||| BPF_K) (SECCOMP_RET_KILL_PROCESS : Nat)) := by
      have h5 : 5 + 2 * syscalls.length = (filter_base syscalls.length ++ rules).length + 1 := by
        simp [filter_base, hrl]
        omega
      rw [h5]
      exact getElem?_append_second _ _ _ _
    have hjf : toU8 (3 + 2 * (syscalls.length : Int)) = 3 + 2 * syscalls.length := by
      unfold toU8
      rw [Int.emod_eq_of_lt (by omega) (by omega)]
      omega
    have hjt : toU8 (1 + 2 * (syscalls.length : Int)) = 1 + 2 * syscalls.length := by
      unfold toU8
      rw [Int.emod_eq_of_lt (by omega) (by omega)]
      omega
    have hl0 : seccomp_load d (toU32 (offsetof_arch : Nat)) = some d.arch := by
      have : toU32 (offsetof_arch : Nat) = 4 := rfl
      rw [this]
      simp only [seccomp_load]
      rw [Nat.mod_eq_of_lt ha]
      simp
    have hl2 : seccomp_load d (toU32 (offsetof_nr : Nat)) = some d.nr := by
      have : toU32 (offsetof_nr : Nat) = 0 := rfl
      rw [this]
      simp only [seccomp_load]
      rw [Nat.mod_eq_of_lt hn]
      simp
    have hget1 : (filter_base syscalls.length ++ rules ++ filter_end)[1]? =
        some (BPF_JUMP (BPF_JMP ||| BPF_JEQ ||| BPF_K) (AUDIT_ARCH_X86_64 : Nat) 0
          (3 + 2 * (syscalls.length : Int))) := by
      simp [filter_base]
    have hget3 : (filter_base syscalls.length ++ rules ++ filter_end)[3]? =
        some (BPF_JUMP (BPF_JMP ||| BPF_JGT ||| BPF_K) ((X32_SYSCALL_BIT - 1 : Nat) : Int)
          (1 + 2 * (syscalls.length : Int)) 0) := by
      simp [filter_base]
    have hk : toU32 (AUDIT_ARCH_X86_64 : Nat) = AUDIT_ARCH_X86_64 := rfl
    have hk2 : toU32 ((X32_SYSCALL_BIT - 1 : Nat) : Int) = 0x3fffffff := rfl
    have h0 : toU8 0 = 0 := rfl
    unfold seccomp_run
    rw [hlen, bpf_run_ld _ _ _ 0 0 _ _ (by simp [filter_base]) hl0,
      bpf_run_jeq _ _ _ 1 _ _ _ _ hget1, hk, h0, hjf]
    by_cases harch : d.arch = AUDIT_ARCH_X86_64
    · have hnr : d.nr > 0x3fffffff := by
        rcases hd with h | h
        · exact absurd harch h
        · exact h
      rw [if_pos harch, bpf_run_ld _ _ _ (1 + 1 + 0) _ _ _ (by simp [filter_base]) hl2,
        bpf_run_jgt _ _ _ (1 + 1 + 0 + 1) _ _ _ _ hget3, hk2, if_pos hnr, hjt]
      have hpc : 1 + 1 + 0 + 1 + 1 + (1 + 2 * syscalls.length) = 5 + 2 * syscalls.length := by
        omega
      rw [hpc, bpf_run_ret _ _ _ _ _ _ hkill]
      rfl
    · rw [if_neg harch]
      have hpc : 1 + 1 + (3 + 2 * syscalls.length) = 5 + 2 * syscalls.length := by omega
      rw [hpc, bpf_run_ret _ _ _ _ _ _ hkill]
      rfl

set_option maxRecDepth 100000 in
/-- C2 (failing input): with 128 configured syscalls (numbers 0..127, errno 38)
the displacement `3 + 2 * 128 = 259` of instruction [1] is stored in the 8-bit
`jf` field as 3 and the displacement `1 + 2 * 128 = 257` of instruction [3] in
`jt` as 1; both jumps land on instruction 5, the `SECCOMP_RET_ERRNO | 38` of
the first rule, instead of the kill at index `5 + 2 * 128 = 261`.  A record of
another architecture and an x32 syscall number are answered with the errno
verdict, not with `SECCOMP_RET_KILL_PROCESS`. -/
theorem install_filter_far_jump_wraps :
    (install_filter ((List.range 128).map Int.ofNat) DO_ERRNO 38).map
        (fun prog => (prog.length, prog[1]?.map (fun i => i.jf), prog[3]?.map (fun i => i.jt),
          seccomp_run prog { nr := 59, arch := AUDIT_ARCH_I386 },
          seccomp_run prog { nr := X32_SYSCALL_BIT + 59, arch := AUDIT_ARCH_X86_64 })) =
      some (262, some 3, some 1, some (SECCOMP_RET_ERRNO ||| 38),
        some (SECCOMP_RET_ERRNO ||| 38)) ∧
    SECCOMP_RET_ERRNO ||| 38 ≠ SECCOMP_RET_KILL_PROCESS := by
  constructor
  · decide
  · decide

/-! ## The argument extractor -/

/-- C3: `ptrace_get_syscall_args` returns `rdi, rsi, rdx, r10, r8, r9` (cast to
`long`) for positions 0..5, the result for position 3 is the same whatever
`rcx` holds, and for every position outside 0..5 no value is returned: the
process ends through `exit(EXIT_FAILURE)`. -/
theorem ptrace_get_syscall_args_table (regs : user_regs_struct) :
    ptrace_get_syscall_args 0 regs = .ret (toLong regs.rdi) ∧
    ptrace_get_syscall_args 1 regs = .ret (toLong regs.rsi) ∧
    ptrace_get_syscall_args 2 regs = .ret (toLong regs.rdx) ∧
    ptrace_get_syscall_args 3 regs = .ret (toLong regs.r10) ∧
    ptrace_get_syscall_args 4 regs = .ret (toLong regs.r8) ∧
    ptrace_get_syscall_args 5 regs = .ret (toLong regs.r9) ∧
    (∀ v : Nat, ptrace_get_syscall_args 3 { regs with rcx := v } =
      ptrace_get_syscall_args 3 regs) ∧
    (∀ argn : Int, (argn < 0 ∨ 5 < argn) →
      ptrace_get_syscall_args argn regs = .exit EXIT_FAILURE) := by
  refine ⟨rfl, rfl, rfl, rfl, rfl, rfl, fun _ => rfl, ?_⟩
  intro argn h
  unfold ptrace_get_syscall_args
  have h0 : argn ≠ 0 := by omega
  have h1 : argn ≠ 1 := by omega
  have h2 : argn ≠ 2 := by omega
  have h3 : argn ≠ 3 := by omega
  have h4 : argn ≠ 4 := by omega
  have h5 : argn ≠ 5 := by omega
  simp [h0, h1, h2, h3, h4, h5]

/-- C3 at a concrete snapshot (an `mmap` entry with flags 34 in `r10`):
position 3 yields 34 although `rcx` holds another value, and position 6 ends the
process. -/
theorem ptrace_get_syscall_args_table_witness :
    ptrace_get_syscall_args 3 sample_regs = .ret 34 ∧
    ptrace_get_syscall_args 6 sample_regs = .exit EXIT_FAILURE :=
  ⟨(ptrace_get_syscall_args_table sample_regs).2.2.2.1,
   (ptrace_get_syscall_args_table sample_regs).2.2.2.2.2.2.2 6 (by decide)⟩

/-! ## The tracee memory reader -/

theorem storeWord_getElem? (buf : List Nat) (idx w i : Nat) :
    (storeWord buf idx w)[i]? =
      (buf[i]?).map (fun b =>
        if 8 * idx ≤ i ∧ i < 8 * idx + 8 then w / 256 ^ (i - 8 * idx) % 256 else b) := by
  unfold storeWord
  rw [List.getElem?_map, List.getElem?_enum, Option.map_map]
  rfl

theorem storeWord_length (buf : List Nat) (idx w : Nat) :
    (storeWord buf idx w).length = buf.length := by
  simp [storeWord]

theorem memset_getElem? (buf : List Nat) (c n i : Nat) :
    (memset buf c n)[i]? = (buf[i]?).map (fun b => if i < n then c % 256 else b) := by
  unfold memset
  rw [List.getElem?_map, List.getElem?_enum, Option.map_map]
  rfl

theorem memset_length (buf : List Nat) (c n : Nat) : (memset buf c n).length = buf.length := by
  simp [memset]

/-- The little-endian bytes of a word assembled from eight bytes. -/
theorem le_bytes (c0 c1 c2 c3 c4 c5 c6 c7 : Nat) (e0 : c0 < 256) (e1 : c1 < 256)
    (e2 : c2 < 256) (e3 : c3 < 256) (e4 : c4 < 256) (e5 : c5 < 256) (e6 : c6 < 256)
    (e7 : c7 < 256) (w : Nat)
    (hw : w = c0 + 256 * c1 + 65536 * c2 + 16777216 * c3 + 4294967296 * c4
      + 1099511627776 * c5 + 281474976710656 * c6 + 72057594037927936 * c7) :
    w / 1 % 256 = c0 ∧ w / 256 % 256 = c1 ∧ w / 65536 % 256 = c2 ∧
    w / 16777216 % 256 = c3 ∧ w / 4294967296 % 256 = c4 ∧
    w / 1099511627776 % 256 = c5 ∧ w / 281474976710656 % 256 = c6 ∧
    w / 72057594037927936 % 256 = c7 := by
  subst hw
  refine ⟨?_, ?_, ?_, ?_, ?_, ?_, ?_, ?_⟩ <;> omega

/-- A word whose eight bytes are all mapped is read, and its little-endian
bytes are the mapped bytes. -/
theorem readWord_of_mapped (mem : TraceeMemory) (a : Nat)
    (h : ∀ j, j < 8 → (mem (a + j)).isSome = true) :
    ∃ w, readWord mem a = some w ∧
      ∀ j, j < 8 → ∃ b, mem (a + j) = some b ∧ w / 256 ^ j % 256 = b % 256 := by
  obtain ⟨b0, h0⟩ := Option.isSome_iff_exists.1 (h 0 (by omega))
  obtain ⟨b1, h1⟩ := Option.isSome_iff_exists.1 (h 1 (by omega))
  obtain ⟨b2, h2⟩ := Option.isSome_iff_exists.1 (h 2 (by omega))
  obtain ⟨b3, h3⟩ := Option.isSome_iff_exists.1 (h 3 (by omega))
  obtain ⟨b4, h4⟩ := Option.isSome_iff_exists.1 (h 4 (by omega))
  obtain ⟨b5, h5⟩ := Option.isSome_iff_exists.1 (h 5 (by omega))
  obtain ⟨b6, h6⟩ := Option.isSome_iff_exists.1 (h 6 (by omega))
  obtain ⟨b7, h7⟩ := Option.isSome_iff_exists.1 (h 7 (by omega))
  rw [Nat.add_zero] at h0
  refine ⟨b0 % 256 + 256 * (b1 % 256) + 256 ^ 2 * (b2 % 256) + 256 ^ 3 * (b3 % 256)
    + 256 ^ 4 * (b4 % 256) + 256 ^ 5 * (b5 % 256) + 256 ^ 6 * (b6 % 256)
    + 256 ^ 7 * (b7 % 256), by simp only [readWord, h0, h1, h2, h3, h4, h5, h6, h7]; rfl, ?_⟩
  have hb := le_bytes (b0 % 256) (b1 % 256) (b2 % 256) (b3 % 256) (b4 % 256) (b5 % 256)
    (b6 % 256) (b7 % 256) (Nat.mod_lt _ (by decide)) (Nat.mod_lt _ (by decide))
    (Nat.mod_lt _ (by decide)) (Nat.mod_lt _ (by decide)) (Nat.mod_lt _ (by decide))
    (Nat.mod_lt _ (by decide)) (Nat.mod_lt _ (by decide)) (Nat.mod_lt _ (by decide))
    (b0 % 256 + 256 * (b1 % 256) + 256 ^ 2 * (b2 % 256) + 256 ^ 3 * (b3 % 256)
    + 256 ^ 4 * (b4 % 256) + 256 ^ 5 * (b5 % 256) + 256 ^ 6 * (b6 % 256)
    + 256 ^ 7 * (b7 % 256)) (by norm_num)
  obtain ⟨g0, g1, g2, g3, g4, g5, g6, g7⟩ := hb
  intro j hj
  interval_cases j
  · exact ⟨b0, h0, g0⟩
  · exact ⟨b1, h1, g1⟩
  · exact ⟨b2, h2, g2⟩
  · exact ⟨b3, h3, g3⟩
  · exact ⟨b4, h4, g4⟩
  · exact ⟨b5, h5, g5⟩
  · exact ⟨b6, h6, g6⟩
  · exact ⟨b7, h7, g7⟩

theorem peekdata_of_none (mem : TraceeMemory) (a : Nat) (h : readWord mem a = none) :
    peekdata mem a = { tmp := 2 ^ 64 - 1, errno := EIO } := by
  simp [peekdata, h]

theorem peekdata_of_some (mem : TraceeMemory) (a w : Nat) (h : readWord mem a = some w) :
    peekdata mem a = { tmp := w, errno := 0 } := by
  simp [peekdata, h]

/-- One iteration of the loop when the peek succeeds. -/
theorem loop_step_ok (peek : Nat → PeekResult) (addr fuel i w : Nat) (buf peeks : List Nat)
    (hi : i < 512) (hp : peek ((addr + 8 * i) % 2 ^ 64) = { tmp := w, errno := 0 }) :
    ptrace_get_string_from_tracee_loop peek addr (fuel + 1) (8 * i) buf peeks =
      ptrace_get_string_from_tracee_loop peek addr fuel (8 * (i + 1)) (storeWord buf i w)
        (peeks ++ [(addr + 8 * i) % 2 ^ 64]) := by
  rw [ptrace_get_string_from_tracee_loop]
  have hlt : 8 * i < PATH_MAX := by unfold PATH_MAX; omega
  have hdiv : 8 * i / 8 = i := by omega
  simp only [hlt, if_true, hp, hdiv]
  have h1 : ¬ ((0 : Nat) = EFAULT ∨ (0 : Nat) = EIO) := by decide
  rw [if_neg h1, if_neg (by simp)]
  rfl

/-- One iteration of the loop when the peek faults after the first word. -/
theorem loop_step_fault (peek : Nat → PeekResult) (addr fuel i t : Nat) (buf peeks : List Nat)
    (h0 : 1 ≤ i) (hi : i < 512) (hp : peek ((addr + 8 * i) % 2 ^ 64) = { tmp := t, errno := EIO }) :
    ptrace_get_string_from_tracee_loop peek addr (fuel + 1) (8 * i) buf peeks =
      some { outcome := .ret 0, buffer := buf, peeks := peeks ++ [(addr + 8 * i) % 2 ^ 64] } := by
  rw [ptrace_get_string_from_tracee_loop]
  have hlt : 8 * i < PATH_MAX := by unfold PATH_MAX; omega
  simp only [hlt, if_true, hp]
  have h2 : 8 * i ≠ 0 := by omega
  simp [h2]

/-- The loop leaves once `byte` has reached `PATH_MAX`. -/
theorem loop_step_done (peek : Nat → PeekResult) (addr fuel : Nat) (buf peeks : List Nat) :
    ptrace_get_string_from_tracee_loop peek addr (fuel + 1) (8 * 512) buf peeks =
      some { outcome := .ret 0, buffer := buf, peeks := peeks } := by
  rw [ptrace_get_string_from_tracee_loop]
  have hlt : ¬ (8 * 512 < PATH_MAX) := by decide
  rw [if_neg hlt]

/-- From the second word on, reading tracee memory always ends with return
value 0 and never touches the bytes already stored. -/
theorem loop_tail (mem : TraceeMemory) (addr : Nat) :
    ∀ (fuel i : Nat) (buf peeks : List Nat), 1 ≤ i → i ≤ 512 → 513 - i ≤ fuel →
      ∃ r, ptrace_get_string_from_tracee_loop (peekdata mem) addr fuel (8 * i) buf peeks
          = some r ∧
        r.outcome = .ret 0 ∧ r.buffer.length = buf.length ∧
        ∀ j, j < 8 * i → r.buffer[j]? = buf[j]? := by
  intro fuel
  induction fuel with
  | zero => intro i buf peeks h1 h2 h3; omega
  | succ f ih =>
    intro i buf peeks h1 h2 h3
    by_cases hlt : i < 512
    · cases hw : readWord mem ((addr + 8 * i) % 2 ^ 64) with
      | none =>
        rw [loop_step_fault _ _ _ _ _ _ _ h1 hlt (peekdata_of_none _ _ hw)]
        exact ⟨_, rfl, rfl, rfl, fun _ _ => rfl⟩
      | some w =>
        rw [loop_step_ok _ _ _ _ _ _ _ hlt (peekdata_of_some _ _ _ hw)]
        obtain ⟨r, hr, ho, hl, hb⟩ := ih (i + 1) (storeWord buf i w)
          (peeks ++ [(addr + 8 * i) % 2 ^ 64]) (by omega) (by omega) (by omega)
        refine ⟨r, hr, ho, by rw [hl, storeWord_length], ?_⟩
        intro j hj
        rw [hb j (by omega), storeWord_getElem?]
        have : ¬ (8 * i ≤ j ∧ j < 8 * i + 8) := by omega
        simp [this]
    · have hi : i = 512 := by omega
      subst hi
      rw [loop_step_done]
      exact ⟨_, rfl, rfl, rfl, fun _ _ => rfl⟩

/-- Reading words that are wholly mapped: when the words `i .. m - 1` counted
from `addr` are mapped, the loop started at word `i` ends with return value 0,
keeps the bytes below `8 * i` and stores the tracee's bytes at `8 * i .. 8 * m - 1`. -/
theorem loop_read (mem : TraceeMemory) (addr m : Nat) (hm : m ≤ 512) (hm1 : 1 ≤ m)
    (hmap : wordsReadable mem addr m) (haddr : ∀ k, k < m → addr + 8 * k < 2 ^ 64) :
    ∀ (d i fuel : Nat) (buf peeks : List Nat), i + d = m → 513 - i ≤ fuel →
      ∃ r, ptrace_get_string_from_tracee_loop (peekdata mem) addr fuel (8 * i) buf peeks
          = some r ∧
        r.outcome = .ret 0 ∧ r.buffer.length = buf.length ∧
        (∀ j, j < 8 * i → r.buffer[j]? = buf[j]?) ∧
        (∀ j, 8 * i ≤ j → j < 8 * m → j < buf.length →
          ∃ b, mem (addr + j) = some b ∧ r.buffer[j]? = some (b % 256)) := by
  intro d
  induction d with
  | zero =>
    intro i fuel buf peeks hid hfuel
    obtain ⟨r, hr, ho, hl, hb⟩ := loop_tail mem addr fuel i buf peeks (by omega) (by omega) hfuel
    exact ⟨r, hr, ho, hl, hb, fun j h1 h2 _ => by omega⟩
  | succ d ih =>
    intro i fuel buf peeks hid hfuel
    obtain ⟨f, rfl⟩ : ∃ f, fuel = f + 1 := ⟨fuel - 1, by omega⟩
    have hmod : (addr + 8 * i) % 2 ^ 64 = addr + 8 * i :=
      Nat.mod_eq_of_lt (haddr i (by omega))
    obtain ⟨w, hw, hbytes⟩ := readWord_of_mapped mem (addr + 8 * i) (by
      intro j hj
      rw [Nat.add_assoc]
      exact hmap (8 * i + j) (by omega))
    rw [loop_step_ok _ _ _ _ w _ _ (by omega) (by rw [hmod]; exact peekdata_of_some _ _ _ hw)]
    obtain ⟨r, hr, ho, hl, hlow, hhigh⟩ := ih (i + 1) f (storeWord buf i w)
      (peeks ++ [(addr + 8 * i) % 2 ^ 64]) (by omega) (by omega)
    refine ⟨r, hr, ho, by rw [hl, storeWord_length], ?_, ?_⟩
    · intro j hj
      rw [hlow j (by omega), storeWord_getElem?]
      have : ¬ (8 * i ≤ j ∧ j < 8 * i + 8) := by omega
      simp [this]
    · intro j hj1 hj2 hj3
      by_cases hj : j < 8 * (i + 1)
      · rw [hlow j hj, storeWord_getElem?]
        obtain ⟨b, hb1, hb2⟩ := hbytes (j - 8 * i) (by omega)
        refine ⟨b, ?_, ?_⟩
        · rw [← hb1]; congr 1; omega
        · have hin : 8 * i ≤ j ∧ j < 8 * i + 8 := by omega
          rw [List.getElem?_eq_getElem hj3]
          simp [hin, hb2]
      · exact hhigh j (by omega) hj2 (by rw [storeWord_length]; exact hj3)

/-- An array that agrees with `s` on its first bytes and has a NUL right
after them holds the C string `s`. -/
theorem cstring_of_bytes :
    ∀ (s L : List Nat), (∀ b ∈ s, b ≠ 0) →
      (∀ i, ∀ h : i < s.length, L[i]? = some (s.get ⟨i, h⟩)) →
      L[s.length]? = some 0 → cstring L = s := by
  intro s
  induction s with
  | nil =>
    intro L _ _ h0
    cases L with
    | nil => simp at h0
    | cons x tl =>
      simp at h0
      subst h0
      simp [cstring]
  | cons a s ih =>
    intro L hnz hpre h0
    cases L with
    | nil => simp at h0
    | cons x tl =>
      have hx := hpre 0 (by simp)
      simp at hx
      subst hx
      have hne : x ≠ 0 := hnz x (List.mem_cons_self _ _)
      have htl : cstring tl = s := by
        apply ih tl (fun b hb => hnz b (List.mem_cons_of_mem _ hb))
        · intro i h
          have := hpre (i + 1) (by simp; omega)
          simpa using this
        · simpa using h0
      unfold cstring at htl ⊢
      rw [List.takeWhile_cons]
      simp [hne, htl]

/-- The bytes the reader leaves in the buffer for a stored string whose words
are wholly mapped: the string, then a NUL. -/
theorem reader_stores_string (mem : TraceeMemory) (addr : Nat) (s buffer : List Nat)
    (hs : storesString mem addr s) (hlen : s.length ≤ PATH_MAX - 1)
    (hwords : wordsReadable mem addr (s.length / 8 + 1))
    (haddr : addr + s.length < 2 ^ 64) (hbuf : PATH_MAX ≤ buffer.length) :
    ∃ r, ptrace_get_string_from_tracee (peekdata mem) addr buffer = some r ∧
      r.outcome = .ret 0 ∧
      (∀ i, ∀ h : i < s.length, r.buffer[i]? = some (s.get ⟨i, h⟩)) ∧
      r.buffer[s.length]? = some 0 := by
  unfold PATH_MAX at hlen hbuf
  obtain ⟨hbytes, hrange, hnul⟩ := hs
  obtain ⟨r, hr, ho, hl, -, hhigh⟩ :=
    loop_read mem addr (s.length / 8 + 1) (by omega) (by omega) hwords
      (fun k hk => by omega) (s.length / 8 + 1) 0 (PATH_MAX / 8 + 1)
      (memset buffer 0 PATH_MAX) [] (by omega) (by unfold PATH_MAX; omega)
  refine ⟨r, hr, ho, ?_, ?_⟩
  · intro i hi
    rw [memset_length] at hhigh
    obtain ⟨b, hb1, hb2⟩ := hhigh i (by omega) (by omega) (by omega)
    rw [hbytes i hi] at hb1
    have hlt := (hrange _ (List.get_mem s i hi)).2
    rw [hb2, ← Option.some.inj hb1, Nat.mod_eq_of_lt hlt]
  · rw [memset_length] at hhigh
    obtain ⟨b, hb1, hb2⟩ := hhigh s.length (by omega) (by omega) (by omega)
    rw [hnul] at hb1
    rw [hb2, ← Option.some.inj hb1]

/-- C4 (amended): when a NUL-terminated string of length at most
`PATH_MAX - 1` is stored at `addr` and every 8-byte word counted from `addr`, up
to and including the one that holds the terminator, is wholly mapped, then
`ptrace_get_string_from_tracee` returns 0 and the bytes of the buffer up to its
first NUL are exactly that string, whatever lies after those words (mapped or
faulting). -/
theorem ptrace_get_string_from_tracee_reads_string (mem : TraceeMemory) (addr : Nat)
    (s buffer : List Nat)
    (hs : storesString mem addr s) (hlen : s.length ≤ PATH_MAX - 1)
    (hwords : wordsReadable mem addr (s.length / 8 + 1))
    (haddr : addr + s.length < 2 ^ 64) (hbuf : PATH_MAX ≤ buffer.length) :
    ∃ r, ptrace_get_string_from_tracee (peekdata mem) addr buffer = some r ∧
      r.outcome = .ret 0 ∧ cstring r.buffer = s := by
  obtain ⟨r, hr, ho, hpre, hnul⟩ := reader_stores_string mem addr s buffer hs hlen hwords haddr hbuf
  refine ⟨r, hr, ho, cstring_of_bytes s r.buffer ?_ hpre hnul⟩
  intro b hb
  have := hs.2.1 b hb
  omega

/-- C4 (amended) at a concrete input: `"/etc/shadow"` sits 16 bytes before the
end of a mapped page; its two words are mapped, the third peek faults. -/
theorem ptrace_get_string_from_tracee_reads_string_witness :
    ∃ r, ptrace_get_string_from_tracee (peekdata page_end_mem) 8176
        (List.replicate PATH_MAX 255) = some r ∧
      r.outcome = .ret 0 ∧
      cstring r.buffer = [47, 101, 116, 99, 47, 115, 104, 97, 100, 111, 119] :=
  ptrace_get_string_from_tracee_reads_string page_end_mem 8176
    [47, 101, 116, 99, 47, 115, 104, 97, 100, 111, 119] (List.replicate PATH_MAX 255)
    (by unfold storesString; decide) (by decide) (by unfold wordsReadable; decide)
    (by decide) (by simp)

set_option maxRecDepth 100000 in
/-- C4 (counterexample): `"abc"` is stored, with its terminator, in the last
four bytes of a mapped page.  The word peeked at its address reaches into the
unmapped page, the peek fails and the tracer leaves through `exit(1)`.  The
string `"etc/shadow"` one byte into the last 16 bytes is cut to `"etc/shad"`:
the word holding its tail and terminator cannot be peeked. -/
theorem ptrace_get_string_from_tracee_straddle :
    (storesString page_end_mem 8188 [97, 98, 99] ∧
      [97, 98, 99].length ≤ PATH_MAX - 1 ∧
      (ptrace_get_string_from_tracee (peekdata page_end_mem) 8188
        (List.replicate PATH_MAX 0)).map (fun r => r.outcome) = some (.exit 1)) ∧
    (storesString page_end_mem 8177 [101, 116, 99, 47, 115, 104, 97, 100, 111, 119] ∧
      (ptrace_get_string_from_tracee (peekdata page_end_mem) 8177
        (List.replicate PATH_MAX 0)).map (fun r => (r.outcome, cstring r.buffer)) =
        some (.ret 0, [101, 116, 99, 47, 115, 104, 97, 100])) := by
  refine ⟨⟨?_, ?_, ?_⟩, ?_, ?_⟩
  · unfold storesString; decide
  · decide
  · decide
  · unfold storesString; decide
  · decide

/-- C5 (failing input): the tracee has 8192 mapped bytes `'a'` at `0x1000`.
The read returns 0 and fills all `PATH_MAX` bytes of the caller's
`char path_buffer[PATH_MAX]`: no byte of the buffer is NUL, and `strcmp` of
the buffer with the 4096-byte path `"aa...a"` runs past the end of the buffer. -/
theorem ptrace_get_string_from_tracee_unterminated :
    ∃ r, ptrace_get_string_from_tracee (peekdata long_run_mem) 4096
        (List.replicate PATH_MAX 0) = some r ∧
      r.outcome = .ret 0 ∧ r.buffer.length = PATH_MAX ∧ (∀ b ∈ r.buffer, b ≠ 0) ∧
      strcmp r.buffer (List.replicate PATH_MAX 97 ++ [0]) = none := by
  have hmap : wordsReadable long_run_mem 4096 512 := by
    intro j hj
    have : 4096 ≤ 4096 + j ∧ 4096 + j < 12288 := by omega
    simp [long_run_mem, this]
  obtain ⟨r, hr, ho, hl, -, hhigh⟩ :=
    loop_read long_run_mem 4096 512 (by omega) (by omega) hmap (fun k hk => by omega)
      512 0 (PATH_MAX / 8 + 1) (memset (List.replicate PATH_MAX 0) 0 PATH_MAX) []
      (by omega) (by unfold PATH_MAX; omega)
  rw [memset_length, List.length_replicate] at hl hhigh
  have hget : ∀ j, j < PATH_MAX → r.buffer[j]? = some 97 := by
    intro j hj
    obtain ⟨b, hb1, hb2⟩ := hhigh j (by omega) (by unfold PATH_MAX at hj; omega) hj
    have hin : 4096 ≤ 4096 + j ∧ 4096 + j < 12288 := by unfold PATH_MAX at hj; omega
    simp only [long_run_mem, hin, and_self, if_true, Option.some.injEq] at hb1
    rw [hb2, ← hb1]
  have hbuf : r.buffer = List.replicate PATH_MAX 97 := by
    apply List.ext_getElem?
    intro j
    by_cases hj : j < PATH_MAX
    · rw [hget j hj, List.getElem?_replicate_of_lt hj]
    · rw [List.getElem?_eq_none (by omega), List.getElem?_eq_none (by simp; omega)]
  refine ⟨r, hr, ho, hl, ?_, ?_⟩
  · intro b hb
    rw [hbuf] at hb
    rw [(List.mem_replicate.1 hb).2]
    decide
  · rw [hbuf]
    have hcmp : ∀ n : Nat, strcmp (List.replicate n 97) (List.replicate n 97 ++ [0]) = none := by
      intro n
      induction n with
      | zero => rfl
      | succ n ih =>
        rw [List.replicate_succ, List.cons_append, strcmp]
        simp [ih]
    exact hcmp PATH_MAX

/-! ## The path-identity check -/

set_option maxRecDepth 100000 in
/-- C6 (failing input): task 1234 runs `/bin/a` and `EXECUTABLE_PATH` is
`"/bin/a"`.  `memset(binary_path, PATH_MAX + 1, 0)` sets no byte, so the bytes
that `readlink` did not write keep what the stack held: with a stack full of
`'x'` the comparison sees `"/bin/axxx..."` and returns `'x' - 0 = 120`, not 0;
with a stack of zeros it returns 0. -/
theorem ptracer_check_path_uninitialised :
    ptracer_check_path (fun _ => some [47, 98, 105, 110, 47, 97])
        ([47, 98, 105, 110, 47, 97] ++ List.replicate (PATH_MAX + 1 - 6) 0) 1234
        (fun _ => 120) = some 120 ∧
    ptracer_check_path (fun _ => some [47, 98, 105, 110, 47, 97])
        ([47, 98, 105, 110, 47, 97] ++ List.replicate (PATH_MAX + 1 - 6) 0) 1234
        (fun _ => 0) = some 0 := by
  constructor <;> decide

/-! ## The tracer event loop -/

/-- In ScalarArg mode with ReturnErrno the loop itself compares whole machine
words: given the `long` value `argv` it was called with, a trap is stubbed
exactly when its syscall number is `sys` and its `argn`-th argument is `argv`,
and is otherwise continued with no register written back. -/
theorem ptracer_loop_trap_scalar (sys argn argv : Int) (path : List Nat) (f_errno : Int)
    (EXECUTABLE_PATH : List Nat) (ev : WaitStop) (a : Int)
    (harg : ptrace_get_syscall_args argn ev.regs = .ret a) :
    ptracer_loop_trap sys argn argv path (DO_PTRACE ||| DO_PARTIALSTUB ||| DO_ERRNO)
        f_errno EXECUTABLE_PATH ev =
      if toLong ev.regs.orig_rax = sys ∧ a = argv then
        ([.PTRACE_GETREGS ev.pid,
          .PTRACE_SETREGS ev.pid { ev.regs with orig_rax := toU64 (-1) },
          .PTRACE_SYSCALL ev.pid, .waitpid ev.pid,
          .PTRACE_SETREGS ev.pid
            { ev.regs with orig_rax := toU64 (-1), rax := toU64 f_errno },
          .PTRACE_CONT ev.pid 0], .next)
      else ([.PTRACE_GETREGS ev.pid, .PTRACE_CONT ev.pid 0], .next) := by
  have f1 : ISSET (DO_PTRACE ||| DO_PARTIALSTUB ||| DO_ERRNO) DO_PARTIALSTUB = true := by
    decide
  have f2 : ISSET (DO_PTRACE ||| DO_PARTIALSTUB ||| DO_ERRNO) DO_PATHSTUB = false := by
    decide
  have f3 : ISSET (DO_PTRACE ||| DO_PARTIALSTUB ||| DO_ERRNO) DO_CHECKPATH = false := by
    decide
  have f4 : ISSET (DO_PTRACE ||| DO_PARTIALSTUB ||| DO_ERRNO) DO_CRASH = false := by decide
  unfold ptracer_loop_trap
  simp only [f1, f2, harg]
  by_cases h1 : toLong ev.regs.orig_rax = sys
  · by_cases h2 : a = argv
    · simp [h1, h2, ptracer_loop_act, f3, f4]
    · simp [h1, h2]
  · simp [h1]

set_option maxRecDepth 100000 in
/-- C7 (failing input): `-p 0 4294967296` stores the value in the `int`
`ptrace_val`, which becomes 0.  A trapped `mmap` (syscall 9) whose argument 0
is 4294967296 is continued without a register write, and one whose argument 0
is 0 is stubbed. -/
theorem ptracer_loop_scalar_value_truncated :
    main_case_p 0 0 (some 4294967296) = .ret (DO_PTRACE ||| DO_PARTIALSTUB, 0, 0) ∧
    ptracer_loop_trap 9 0 0 [] (DO_PTRACE ||| DO_PARTIALSTUB ||| DO_ERRNO) 38 []
        (seccomp_stop { sample_regs with rdi := 4294967296 } (fun _ => none)) =
      ([.PTRACE_GETREGS 100, .PTRACE_CONT 100 0], .next) ∧
    ptracer_loop_trap 9 0 0 [] (DO_PTRACE ||| DO_PARTIALSTUB ||| DO_ERRNO) 38 []
        (seccomp_stop { sample_regs with rdi := 0 } (fun _ => none)) =
      ([.PTRACE_GETREGS 100,
        .PTRACE_SETREGS 100 { sample_regs with rdi := 0, orig_rax := 2 ^ 64 - 1 },
        .PTRACE_SYSCALL 100, .waitpid 100,
        .PTRACE_SETREGS 100 { sample_regs with rdi := 0, orig_rax := 2 ^ 64 - 1, rax := 38 },
        .PTRACE_CONT 100 0], .next) := by
  refine ⟨?_, ?_, ?_⟩ <;> decide

/-- The counter of `ptracer_loop`: started from a positive value it never
becomes negative, and when it is 0 at the end the loop has returned 0. -/
theorem ptracer_loop_run_counter (sys argn argv : Int) (path : List Nat) (flags : Nat)
    (f_errno : Int) (EXECUTABLE_PATH : List Nat) :
    ∀ (events : List WaitStop) (n : Int) (acts : List TracerAction), 1 ≤ n →
      0 ≤ (ptracer_loop_run sys argn argv path flags f_errno EXECUTABLE_PATH events n
        acts).number_of_children ∧
      ((ptracer_loop_run sys argn argv path flags f_errno EXECUTABLE_PATH events n
        acts).number_of_children = 0 →
        (ptracer_loop_run sys argn argv path flags f_errno EXECUTABLE_PATH events n
          acts).ending = .returned 0) := by
  intro events
  induction events with
  | nil =>
    intro n acts hn
    simp only [ptracer_loop_run]
    constructor <;> omega
  | cons ev rest ih =>
    intro n acts hn
    rw [ptracer_loop_run]
    by_cases hpid : ev.pid = -1
    · simp only [hpid, if_true]
      constructor <;> omega
    · simp only [hpid, if_false]
      by_cases hz : (if WIFEXITED ev.status = true then n - 1 else n) = 0
      · simp only [hz, if_true]
        refine ⟨?_, ?_⟩ <;> simp
      · have hpos : 1 ≤ (if WIFEXITED ev.status = true then n - 1 else n) := by
          by_cases hw : WIFEXITED ev.status = true
          · simp only [hw, if_true] at hz ⊢
            omega
          · simp only [hw] at hz ⊢
            simpa using hn
        simp only [hz, if_false]
        generalize (if WIFEXITED ev.status = true then n - 1 else n) = m at hz hpos
        split
        · split
          · exact ih _ _ hpos
          · exact ⟨by simp only; omega, fun h => by simp only at h; omega⟩
          · exact ⟨by simp only; omega, fun h => by simp only at h; omega⟩
          · exact ⟨by simp only; omega, fun h => by simp only at h; omega⟩
        · split
          · exact ih _ _ (by omega)
          · exact ih _ _ hpos

set_option maxRecDepth 100000 in
/-- C9 (failing input): the only traced task is killed by `SIGKILL`
(`status = 9`, `WIFSIGNALED`).  `number_of_children` stays 1, the status is
handled as a signal stop to forward, and the loop waits again; when the next
`waitpid` fails for want of children it returns -1, not success. -/
theorem ptracer_loop_signal_death_not_counted :
    WIFSIGNALED killed_stop.status = true ∧
    ptracer_loop 9 0 34 [] (DO_PTRACE ||| DO_PARTIALSTUB ||| DO_ERRNO) 38 [] [killed_stop] =
      { actions := [.PTRACE_GETSIGINFO 100, .PTRACE_CONT 100 0], number_of_children := 1,
        ending := .waiting } ∧
    ptracer_loop 9 0 34 [] (DO_PTRACE ||| DO_PARTIALSTUB ||| DO_ERRNO) 38 []
        [killed_stop, failed_wait] =
      { actions := [.PTRACE_GETSIGINFO 100, .PTRACE_CONT 100 0], number_of_children := 1,
        ending := .returned (-1) } := by
  refine ⟨?_, ?_, ?_⟩ <;> decide

/-- Comparing an array that holds the C string `s` with the C string `p`:
`strcmp` is defined and returns 0 exactly when `s = p`. -/
theorem strcmp_of_bytes :
    ∀ (s p buf : List Nat), (∀ b ∈ s, b ≠ 0) → (∀ b ∈ p, b ≠ 0) →
      (∀ i, ∀ h : i < s.length, buf[i]? = some (s.get ⟨i, h⟩)) →
      buf[s.length]? = some 0 →
      ∃ c, strcmp buf (p ++ [0]) = some c ∧ (c = 0 ↔ s = p) := by
  intro s
  induction s with
  | nil =>
    intro p buf _ hp _ h0
    cases buf with
    | nil => simp at h0
    | cons x tl =>
      simp at h0
      subst h0
      cases p with
      | nil => exact ⟨0, by simp [strcmp], by simp⟩
      | cons y p' =>
        have hy : y ≠ 0 := hp y (List.mem_cons_self _ _)
        refine ⟨(0 : Int) - (y : Int), ?_, ?_⟩
        · rw [List.cons_append, strcmp]
          simp [Ne.symm hy]
        · simp
          omega
  | cons a s ih =>
    intro p buf hs hp hpre h0
    cases buf with
    | nil => simp at h0
    | cons x tl =>
      have hx := hpre 0 (by simp)
      simp at hx
      subst hx
      have hne : x ≠ 0 := hs x (List.mem_cons_self _ _)
      cases p with
      | nil =>
        refine ⟨(x : Int) - 0, ?_, ?_⟩
        · rw [List.nil_append, strcmp]
          simp [hne]
        · simp
          omega
      | cons y p' =>
        by_cases hxy : x = y
        · subst hxy
          obtain ⟨c, hc, hiff⟩ := ih p' tl (fun b hb => hs b (List.mem_cons_of_mem _ hb))
            (fun b hb => hp b (List.mem_cons_of_mem _ hb))
            (fun i h => by
              have := hpre (i + 1) (by simp; omega)
              simpa using this)
            (by simpa using h0)
          refine ⟨c, ?_, ?_⟩
          · rw [List.cons_append, strcmp]
            simp [hne, hc]
          · simp [hiff]
        · refine ⟨(x : Int) - (y : Int), ?_, ?_⟩
          · rw [List.cons_append, strcmp]
            simp [hxy]
          · simp [hxy]
            omega

/-- C8 (amended): in PathArg mode with ReturnErrno (`flags = DO_PTRACE |
DO_PATHSTUB | DO_ERRNO`), at a seccomp trap whose syscall number equals `sys`
and whose `argn`-th argument register holds an address at which a
NUL-terminated string of length at most `PATH_MAX - 1` is stored with every
8-byte word up to the terminator's wholly mapped, the call is stubbed (the two
register writes) exactly when that string is byte-for-byte the configured
path; otherwise the task is continued with no register written back. -/
theorem ptracer_loop_trap_pathstub (sys argn argv : Int) (p : List Nat) (f_errno : Int)
    (EXECUTABLE_PATH : List Nat) (ev : WaitStop) (a : Int) (s : List Nat)
    (hsys : toLong ev.regs.orig_rax = sys)
    (harg : ptrace_get_syscall_args argn ev.regs = .ret a)
    (hs : storesString ev.mem (toU64 a) s) (hlen : s.length ≤ PATH_MAX - 1)
    (hwords : wordsReadable ev.mem (toU64 a) (s.length / 8 + 1))
    (haddr : toU64 a + s.length < 2 ^ 64)
    (hp : ∀ b ∈ p, b ≠ 0) :
    ∃ peeks : List Nat,
      ptracer_loop_trap sys argn argv (p ++ [0]) (DO_PTRACE ||| DO_PATHSTUB ||| DO_ERRNO)
          f_errno EXECUTABLE_PATH ev =
        if s = p then
          ([.PTRACE_GETREGS ev.pid] ++ peeks.map (fun x => .PTRACE_PEEKDATA ev.pid x) ++
            [.PTRACE_SETREGS ev.pid { ev.regs with orig_rax := toU64 (-1) },
             .PTRACE_SYSCALL ev.pid, .waitpid ev.pid,
             .PTRACE_SETREGS ev.pid
               { ev.regs with orig_rax := toU64 (-1), rax := toU64 f_errno },
             .PTRACE_CONT ev.pid 0], .next)
        else
          ([.PTRACE_GETREGS ev.pid] ++ peeks.map (fun x => .PTRACE_PEEKDATA ev.pid x) ++
            [.PTRACE_CONT ev.pid 0], .next) := by
  have hbuf : PATH_MAX ≤ ((List.range PATH_MAX).map (fun i => ev.stack i % 256)).length := by
    simp
  obtain ⟨r, hr, ho, hpre, hnul⟩ :=
    reader_stores_string ev.mem (toU64 a) s _ hs hlen hwords haddr hbuf
  obtain ⟨c, hc, hiff⟩ := strcmp_of_bytes s p r.buffer
    (fun b hb => by have := hs.2.1 b hb; omega) hp hpre hnul
  have f1 : ISSET (DO_PTRACE ||| DO_PATHSTUB ||| DO_ERRNO) DO_PARTIALSTUB = false := by decide
  have f2 : ISSET (DO_PTRACE ||| DO_PATHSTUB ||| DO_ERRNO) DO_PATHSTUB = true := by decide
  have f3 : ISSET (DO_PTRACE ||| DO_PATHSTUB ||| DO_ERRNO) DO_CHECKPATH = false := by decide
  have f4 : ISSET (DO_PTRACE ||| DO_PATHSTUB ||| DO_ERRNO) DO_CRASH = false := by decide
  refine ⟨r.peeks, ?_⟩
  unfold ptracer_loop_trap ptracer_loop_pathstub
  simp only [f1, f2, hsys, harg, hr, ho, hc]
  by_cases hsp : s = p
  · have hc0 : c = 0 := hiff.2 hsp
    simp [hsp, hc0, ptracer_loop_act, f3, f4]
  · have hc0 : c ≠ 0 := fun h => hsp (hiff.1 h)
    simp [hsp, hc0]

/-- C8 (amended) at a concrete input: `open` (syscall 2) with argument 0
pointing at `"/etc/shadow"` near the end of a mapped page, configured path
`"/etc/shadow"`: the call is stubbed with errno 38. -/
theorem ptracer_loop_trap_pathstub_witness :
    ∃ peeks : List Nat,
      ptracer_loop_trap 2 0 0 ([47, 101, 116, 99, 47, 115, 104, 97, 100, 111, 119] ++ [0])
          (DO_PTRACE ||| DO_PATHSTUB ||| DO_ERRNO) 38 []
          (seccomp_stop { sample_regs with rdi := 8176, orig_rax := 2 } page_end_mem) =
        if ([47, 101, 116, 99, 47, 115, 104, 97, 100, 111, 119] : List Nat) =
            [47, 101, 116, 99, 47, 115, 104, 97, 100, 111, 119] then
          ([.PTRACE_GETREGS 100] ++ peeks.map (fun x => .PTRACE_PEEKDATA 100 x) ++
            [.PTRACE_SETREGS 100
               { sample_regs with rdi := 8176, orig_rax := toU64 (-1) },
             .PTRACE_SYSCALL 100, .waitpid 100,
             .PTRACE_SETREGS 100
               { sample_regs with rdi := 8176, orig_rax := toU64 (-1), rax := toU64 38 },
             .PTRACE_CONT 100 0], .next)
        else
          ([.PTRACE_GETREGS 100] ++ peeks.map (fun x => .PTRACE_PEEKDATA 100 x) ++
            [.PTRACE_CONT 100 0], .next) :=
  ptracer_loop_trap_pathstub 2 0 0 [47, 101, 116, 99, 47, 115, 104, 97, 100, 111, 119] 38 []
    (seccomp_stop { sample_regs with rdi := 8176, orig_rax := 2 } page_end_mem) 8176
    [47, 101, 116, 99, 47, 115, 104, 97, 100, 111, 119]
    (by decide) (by decide) (by unfold storesString; decide) (by decide)
    (by unfold wordsReadable; decide) (by decide) (by decide)

set_option maxRecDepth 100000 in
/-- C8 (counterexample): PathArg mode for `open` (syscall 2), argument 0,
errno 38.  (1) Configured path `"/etc/shadow"`, trapped `open(NULL, ..)`: no
string equal to the path is at the address, yet the task is not continued:
the first peek faults and the tracer leaves through `exit(1)`.  (2) Configured
path `"etc/shad"`, the argument points at the stored string `"etc/shadow"`
whose second word reaches into an unmapped page: the strings differ, yet the
call is stubbed. -/
theorem ptracer_loop_trap_pathstub_fault :
    ptracer_loop_trap 2 0 0 [47, 101, 116, 99, 47, 115, 104, 97, 100, 111, 119, 0]
        (DO_PTRACE ||| DO_PATHSTUB ||| DO_ERRNO) 38 []
        (seccomp_stop { sample_regs with rdi := 0, orig_rax := 2 } page_end_mem) =
      ([.PTRACE_GETREGS 100, .PTRACE_PEEKDATA 100 0], .exited 1) ∧
    (storesString page_end_mem 8177 [101, 116, 99, 47, 115, 104, 97, 100, 111, 119] ∧
      ([101, 116, 99, 47, 115, 104, 97, 100, 111, 119] : List Nat) ≠
        [101, 116, 99, 47, 115, 104, 97, 100] ∧
      ptracer_loop_trap 2 0 0 [101, 116, 99, 47, 115, 104, 97, 100, 0]
          (DO_PTRACE ||| DO_PATHSTUB ||| DO_ERRNO) 38 []
          (seccomp_stop { sample_regs with rdi := 8177, orig_rax := 2 } page_end_mem) =
        ([.PTRACE_GETREGS 100, .PTRACE_PEEKDATA 100 8177, .PTRACE_PEEKDATA 100 8185,
          .PTRACE_SETREGS 100 { sample_regs with rdi := 8177, orig_rax := 2 ^ 64 - 1 },
          .PTRACE_SYSCALL 100, .waitpid 100,
          .PTRACE_SETREGS 100
            { sample_regs with rdi := 8177, orig_rax := 2 ^ 64 - 1, rax := 38 },
          .PTRACE_CONT 100 0], .next)) := by
  refine ⟨?_, ?_, ?_, ?_⟩
  · decide
  · unfold storesString; decide
  · decide
  · decide

/-! ## The launcher -/

set_option maxRecDepth 100000 in
/-- C10 (failing input): `-e 38 -p 3 34 -n 2 9 10 prog` (ScalarArg mode, two
syscalls).  On the tracer side `fork` has been called, the child waited for
and resumed, before the error is reported and `exit(EXIT_FAILURE)` is reached.
With `-n 0` no error is reported at all: the tracer loop runs and the launcher
exits with success. -/
theorem main_syscall_count_checked_after_fork :
    main 10 7 2 [9, 10, 0] (DO_PTRACE ||| DO_PARTIALSTUB ||| DO_ERRNO) 3 34 [] 38 []
        parent_env =
      [.fork, .waitpid 4242,
       .PTRACE_SETOPTIONS 4242 (PTRACE_O_TRACESECCOMP ||| PTRACE_O_EXITKILL |||
         PTRACE_O_TRACECLONE ||| PTRACE_O_TRACEFORK ||| PTRACE_O_TRACEVFORK |||
         PTRACE_O_TRACEEXEC),
       .PTRACE_CONT 4242, .error_several_syscalls, .exit EXIT_FAILURE] ∧
    main 8 7 0 [0] (DO_PTRACE ||| DO_PARTIALSTUB ||| DO_ERRNO) 3 34 [] 38 [] parent_env =
      [.fork, .waitpid 4242,
       .PTRACE_SETOPTIONS 4242 (PTRACE_O_TRACESECCOMP ||| PTRACE_O_EXITKILL |||
         PTRACE_O_TRACECLONE ||| PTRACE_O_TRACEFORK ||| PTRACE_O_TRACEVFORK |||
         PTRACE_O_TRACEEXEC),
       .PTRACE_CONT 4242,
       .ptracer_loop { actions := [], number_of_children := 0, ending := .returned 0 },
       .exit EXIT_SUCCESS] := by
  constructor <;> decide

/-- On the tracer side of `main`, whatever value `ptracer_loop` returns, the
launcher goes on to `exit(EXIT_SUCCESS)`: for at most one configured syscall
the trace ends with the loop and that exit. -/
theorem main_tracer_exit (argc optind sysnum : Int) (argv_nums : List Int) (flags : Nat)
    (ptrace_pos ptrace_val : Int) (ptrace_str : List Nat) (f_errno : Int)
    (EXECUTABLE_PATH : List Nat) (env : LaunchEnv) (c : Int)
    (hargc : ¬ argc < optind + sysnum + 1) (hsys0 : 0 ≤ sysnum) (hsys1 : sysnum ≤ 1)
    (hpt : ISSET flags DO_PTRACE = true) (hf1 : env.fork_ret ≠ -1) (hf0 : env.fork_ret ≠ 0)
    (hret : (ptracer_loop (((argv_nums.take sysnum.toNat).map toInt32).getD 0 env.heap)
      ptrace_pos ptrace_val ptrace_str flags (env.errno_tracer.getD f_errno)
      (if (ISSET flags DO_CHECKPATH && EXECUTABLE_PATH.head? == some 0) = true
        then env.realpath else EXECUTABLE_PATH) env.events).ending = .returned c) :
    (main argc optind sysnum argv_nums flags ptrace_pos ptrace_val ptrace_str f_errno
      EXECUTABLE_PATH env).getLast? = some (.exit EXIT_SUCCESS) := by
  unfold main
  have hs : ¬ sysnum < 0 := by omega
  have hs1 : ¬ sysnum > 1 := by omega
  simp only [hargc, hs, hpt, hf1, hf0, hs1, if_false, if_true, ne_eq, not_false_eq_true]
  simp only [hret]
  simp

set_option maxRecDepth 100000 in
/-- C11 (failing input): `-e 38 -p 3 34 -n 1 9 prog` with a `waitpid` that
fails in the tracer loop, and `-e crash -e 38 -p 3 34 -n 1 9 prog` (crash and
errno both selected).  In both runs `ptracer_loop` returns -1 and the tracer
process then calls `exit(EXIT_SUCCESS)`. -/
theorem main_ignores_tracer_error :
    main 9 7 1 [9, 0] (DO_PTRACE ||| DO_PARTIALSTUB ||| DO_ERRNO) 3 34 [] 38 []
        failing_wait_env =
      [.fork, .waitpid 4242,
       .PTRACE_SETOPTIONS 4242 (PTRACE_O_TRACESECCOMP ||| PTRACE_O_EXITKILL |||
         PTRACE_O_TRACECLONE ||| PTRACE_O_TRACEFORK ||| PTRACE_O_TRACEVFORK |||
         PTRACE_O_TRACEEXEC),
       .PTRACE_CONT 4242,
       .ptracer_loop { actions := [], number_of_children := 1, ending := .returned (-1) },
       .exit EXIT_SUCCESS] ∧
    main 11 9 1 [9, 0] (DO_PTRACE ||| DO_PARTIALSTUB ||| DO_ERRNO ||| DO_CRASH) 3 34 [] 38 []
        parent_env =
      [.fork, .waitpid 4242,
       .PTRACE_SETOPTIONS 4242 (PTRACE_O_TRACESECCOMP ||| PTRACE_O_EXITKILL |||
         PTRACE_O_TRACECLONE ||| PTRACE_O_TRACEFORK ||| PTRACE_O_TRACEVFORK |||
         PTRACE_O_TRACEEXEC),
       .PTRACE_CONT 4242,
       .ptracer_loop { actions := [], number_of_children := 1, ending := .returned (-1) },
       .exit EXIT_SUCCESS] ∧
    EXIT_SUCCESS = 0 := by
  refine ⟨?_, ?_, rfl⟩ <;> decide

/-! ## The peeks of the memory reader -/

/-- One iteration of the loop when the peek fails with any `errno`: the loop
is left with this peek as its last one. -/
theorem loop_step_fail (peek : Nat → PeekResult) (addr fuel i : Nat) (buf peeks : List Nat)
    (hi : i < 512) (hp : (peek ((addr + 8 * i) % 2 ^ 64)).errno ≠ 0) :
    ∃ o, ptrace_get_string_from_tracee_loop peek addr (fuel + 1) (8 * i) buf peeks =
      some { outcome := o, buffer := buf, peeks := peeks ++ [(addr + 8 * i) % 2 ^ 64] } := by
  rw [ptrace_get_string_from_tracee_loop]
  have hlt : 8 * i < PATH_MAX := by unfold PATH_MAX; omega
  simp only [hlt, if_true]
  by_cases hf : (peek ((addr + 8 * i) % 2 ^ 64)).errno = EFAULT ∨
      (peek ((addr + 8 * i) % 2 ^ 64)).errno = EIO
  · rw [if_pos hf]
    by_cases h0 : 8 * i ≠ 0
    · rw [if_pos h0]
      exact ⟨_, rfl⟩
    · rw [if_neg h0]
      exact ⟨_, rfl⟩
  · rw [if_neg hf, if_pos hp]
    exact ⟨_, rfl⟩

/-- The peeks of the loop: started at word `i` after `i` successful peeks at
the offsets `0, 8, .., 8 * (i - 1)`, it goes on peeking the following words in
order and is left only by a failing peek or after word 511. -/
theorem loop_peeks (peek : Nat → PeekResult) (addr : Nat) :
    ∀ (fuel i : Nat) (buf peeks : List Nat), i ≤ 512 → 513 - i ≤ fuel →
      peeks.length = i →
      (∀ k, k < i → peeks[k]? = some ((addr + 8 * k) % 2 ^ 64)) →
      (∀ k, k < i → (peek ((addr + 8 * k) % 2 ^ 64)).errno = 0) →
      ∃ r, ptrace_get_string_from_tracee_loop peek addr fuel (8 * i) buf peeks = some r ∧
        r.peeks.length ≤ 512 ∧
        (∀ k, k < r.peeks.length → r.peeks[k]? = some ((addr + 8 * k) % 2 ^ 64)) ∧
        (∀ k, k + 1 < r.peeks.length → (peek ((addr + 8 * k) % 2 ^ 64)).errno = 0) ∧
        (r.peeks.length < 512 → 1 ≤ r.peeks.length ∧
          (peek ((addr + 8 * (r.peeks.length - 1)) % 2 ^ 64)).errno ≠ 0) ∧
        (r.peeks.length = 512 →
          (peek ((addr + 8 * 511) % 2 ^ 64)).errno = 0 → r.outcome = .ret 0) := by
  intro fuel
  induction fuel with
  | zero => intro i buf peeks h1 h2; omega
  | succ f ih =>
    intro i buf peeks hi hfuel hlen haddr hok
    by_cases hlt : i < 512
    · have hext : ∀ k, k < i + 1 →
          (peeks ++ [(addr + 8 * i) % 2 ^ 64])[k]? = some ((addr + 8 * k) % 2 ^ 64) := by
        intro k hk
        by_cases hki : k < i
        · rw [List.getElem?_append_left (by omega)]
          exact haddr k hki
        · have hk' : k = i := by omega
          subst hk'
          rw [← hlen]
          exact getElem?_append_head _ _ _
      by_cases he : (peek ((addr + 8 * i) % 2 ^ 64)).errno = 0
      · have hp : peek ((addr + 8 * i) % 2 ^ 64) =
            { tmp := (peek ((addr + 8 * i) % 2 ^ 64)).tmp, errno := 0 } := by
          cases hpk : peek ((addr + 8 * i) % 2 ^ 64) with
          | mk t e =>
            rw [hpk] at he
            simp only at he
            rw [he]
        rw [loop_step_ok _ _ _ _ _ _ _ hlt hp]
        exact ih (i + 1) _ _ (by omega) (by omega) (by simp [hlen]) hext
          (fun k hk => by
            by_cases hki : k < i
            · exact hok k hki
            · have hk' : k = i := by omega
              subst hk'
              exact he)
      · obtain ⟨o, ho⟩ := loop_step_fail peek addr f i buf peeks hlt he
        rw [ho]
        refine ⟨_, rfl, ?_, ?_, ?_, ?_, ?_⟩
        · simp [hlen]; omega
        · intro k hk
          exact hext k (by simpa [hlen] using hk)
        · intro k hk
          exact hok k (by simp [hlen] at hk; omega)
        · intro _
          constructor
          · simp
          · simpa [hlen] using he
        · intro h h2
          have hi511 : i = 511 := by simp [hlen] at h; omega
          subst hi511
          exact absurd h2 he
    · have hi' : i = 512 := by omega
      subst hi'
      rw [loop_step_done]
      refine ⟨_, rfl, ?_, ?_, ?_, ?_, ?_⟩
      · simp [hlen]
      · intro k hk
        exact haddr k (by simpa [hlen] using hk)
      · intro k hk
        exact hok k (by simp [hlen] at hk; omega)
      · intro h
        simp [hlen] at h
      · intro _ _
        rfl

/-- C12 (amended): for every answer of the peek primitive and every address,
`ptrace_get_string_from_tracee` does not look for a NUL in the words it reads:
it peeks the words at the offsets `0, 8, 16, ...` from `addr` in order, every
peek but the last one issued has succeeded, it stops before `PATH_MAX / 8`
peeks only when the last peek failed, and so the number of peeks is at most
`PATH_MAX / 8 = 512`, whatever the length of the string; after 512 successful
peeks it returns 0. -/
theorem ptrace_get_string_from_tracee_peeks (peek : Nat → PeekResult) (addr : Nat)
    (buffer : List Nat) :
    ∃ r, ptrace_get_string_from_tracee peek addr buffer = some r ∧
      r.peeks.length ≤ PATH_MAX / 8 ∧
      (∀ k, k < r.peeks.length → r.peeks[k]? = some ((addr + 8 * k) % 2 ^ 64)) ∧
      (∀ k, k + 1 < r.peeks.length → (peek ((addr + 8 * k) % 2 ^ 64)).errno = 0) ∧
      (r.peeks.length < PATH_MAX / 8 → 1 ≤ r.peeks.length ∧
        (peek ((addr + 8 * (r.peeks.length - 1)) % 2 ^ 64)).errno ≠ 0) ∧
      (r.peeks.length = PATH_MAX / 8 →
        (peek ((addr + 8 * 511) % 2 ^ 64)).errno = 0 → r.outcome = .ret 0) := by
  have h512 : PATH_MAX / 8 = 512 := by decide
  rw [h512]
  unfold ptrace_get_string_from_tracee
  rw [h512]
  exact loop_peeks peek addr 513 0 (memset buffer 0 PATH_MAX) [] (by omega) (by omega) rfl
    (fun k hk => by omega) (fun k hk => by omega)

set_option maxRecDepth 100000 in
/-- C12 (counterexample): the string `"/etc/shadow"` at `8176` and its
terminator are covered by two words, and the second word (bytes
`8184 .. 8191`) holds the NUL; the reader still issues a third peek, at `8192`.
At `8168` the first word is all NUL (the empty string); the reader peeks four
words. -/
theorem ptrace_get_string_from_tracee_reads_past_nul :
    (storesString page_end_mem 8176 [47, 101, 116, 99, 47, 115, 104, 97, 100, 111, 119] ∧
      page_end_mem 8187 = some 0 ∧
      (ptrace_get_string_from_tracee (peekdata page_end_mem) 8176
        (List.replicate PATH_MAX 0)).map (fun r => (r.outcome, r.peeks)) =
        some (.ret 0, [8176, 8184, 8192])) ∧
    (storesString page_end_mem 8168 [] ∧
      readWord page_end_mem 8168 = some 0 ∧
      (ptrace_get_string_from_tracee (peekdata page_end_mem) 8168
        (List.replicate PATH_MAX 0)).map (fun r => (r.outcome, r.peeks)) =
        some (.ret 0, [8168, 8176, 8184, 8192])) := by
  refine ⟨⟨?_, ?_, ?_⟩, ?_, ?_, ?_⟩
  · unfold storesString; decide
  · decide
  · decide
  · unfold storesString; decide
  · decide
  · decide

/-! ## The register writes of the stub sequence -/

theorem register_writes_append (a b : List TracerAction) :
    register_writes (a ++ b) = register_writes a ++ register_writes b := by
  induction a with
  | nil => rfl
  | cons x rest ih =>
    cases x <;> simp [register_writes, ih]

theorem register_writes_peeks (pid : Int) (l : List Nat) :
    register_writes (l.map (fun p => TracerAction.PTRACE_PEEKDATA pid p)) = [] := by
  induction l with
  | nil => rfl
  | cons x rest ih => simp [register_writes, ih]

/-- The action stage writes registers only through the stub sequence. -/
theorem ptracer_loop_act_writes (flags : Nat) (f_errno : Int) (EXECUTABLE_PATH : List Nat)
    (ev : WaitStop) (pre : List TracerAction) (hpre : register_writes pre = [])
    (hq : register_writes (ptracer_loop_act flags f_errno EXECUTABLE_PATH ev pre).1 ≠ []) :
    ISSET flags DO_CRASH = false ∧
    ptracer_loop_act flags f_errno EXECUTABLE_PATH ev pre =
      (pre ++ [.PTRACE_SETREGS ev.pid { ev.regs with orig_rax := toU64 (-1) },
         .PTRACE_SYSCALL ev.pid, .waitpid ev.pid,
         .PTRACE_SETREGS ev.pid { ev.regs with orig_rax := toU64 (-1), rax := toU64 f_errno },
         .PTRACE_CONT ev.pid 0], .next) := by
  unfold ptracer_loop_act at hq ⊢
  split
  · rename_i h
    rw [h] at hq
    exact absurd hpre hq
  · rename_i c h
    rw [h] at hq
    simp only at hq
    split
    · rename_i h1
      rw [if_pos h1] at hq
      simp [register_writes_append, hpre, register_writes] at hq
    · rename_i h1
      rw [if_neg h1] at hq
      split
      · rename_i h2
        rw [if_pos h2] at hq
        exact absurd hpre hq
      · rename_i h2
        exact ⟨by simpa using h2, rfl⟩

/-- The path branch writes registers only through the stub sequence. -/
theorem ptracer_loop_pathstub_writes (argn : Int) (path : List Nat) (flags : Nat)
    (f_errno : Int) (EXECUTABLE_PATH : List Nat) (ev : WaitStop) (pre : List TracerAction)
    (hpre : register_writes pre = [])
    (hq : register_writes
      (ptracer_loop_pathstub argn path flags f_errno EXECUTABLE_PATH ev pre).1 ≠ []) :
    ∃ pre', register_writes pre' = [] ∧ ISSET flags DO_CRASH = false ∧
      ptracer_loop_pathstub argn path flags f_errno EXECUTABLE_PATH ev pre =
        (pre' ++ [.PTRACE_SETREGS ev.pid { ev.regs with orig_rax := toU64 (-1) },
           .PTRACE_SYSCALL ev.pid, .waitpid ev.pid,
           .PTRACE_SETREGS ev.pid
             { ev.regs with orig_rax := toU64 (-1), rax := toU64 f_errno },
           .PTRACE_CONT ev.pid 0], .next) := by
  unfold ptracer_loop_pathstub at hq ⊢
  split
  · rename_i c h
    rw [h] at hq
    exact absurd hpre hq
  · rename_i a h
    rw [h] at hq
    simp only at hq ⊢
    split
    · rename_i h1
      rw [h1] at hq
      exact absurd hpre hq
    · rename_i r h1
      rw [h1] at hq
      simp only at hq
      have hpre2 : register_writes
          (pre ++ r.peeks.map (fun p => TracerAction.PTRACE_PEEKDATA ev.pid p)) = [] := by
        rw [register_writes_append, hpre, register_writes_peeks]
        rfl
      split
      · rename_i c h2
        rw [h2] at hq
        exact absurd hpre2 hq
      · rename_i x h2
        rw [h2] at hq
        simp only at hq
        split
        · rename_i h3
          rw [h3] at hq
          exact absurd hpre2 hq
        · rename_i c h3
          rw [h3] at hq
          simp only at hq
          split
          · rename_i h4
            rw [if_pos h4] at hq
            have hno : register_writes
                (pre ++ r.peeks.map (fun p => TracerAction.PTRACE_PEEKDATA ev.pid p) ++
                  [TracerAction.PTRACE_CONT ev.pid 0]) = [] := by
              rw [register_writes_append, hpre2]
              rfl
            exact absurd hno hq
          · rename_i h4
            rw [if_neg h4] at hq
            exact ⟨_, hpre2, ptracer_loop_act_writes flags f_errno EXECUTABLE_PATH ev _ hpre2 hq⟩

/-- The handling of a trap writes registers only through the stub sequence,
which comes last. -/
theorem ptracer_loop_trap_writes (sys argn argv : Int) (path : List Nat) (flags : Nat)
    (f_errno : Int) (EXECUTABLE_PATH : List Nat) (ev : WaitStop)
    (hq : register_writes
      (ptracer_loop_trap sys argn argv path flags f_errno EXECUTABLE_PATH ev).1 ≠ []) :
    ∃ pre, register_writes pre = [] ∧ ISSET flags DO_CRASH = false ∧
      ptracer_loop_trap sys argn argv path flags f_errno EXECUTABLE_PATH ev =
        (pre ++ [.PTRACE_SETREGS ev.pid { ev.regs with orig_rax := toU64 (-1) },
           .PTRACE_SYSCALL ev.pid, .waitpid ev.pid,
           .PTRACE_SETREGS ev.pid
             { ev.regs with orig_rax := toU64 (-1), rax := toU64 f_errno },
           .PTRACE_CONT ev.pid 0], .next) := by
  have hg : register_writes [TracerAction.PTRACE_GETREGS ev.pid] = [] := rfl
  have hgc : register_writes
      ([TracerAction.PTRACE_GETREGS ev.pid] ++ [TracerAction.PTRACE_CONT ev.pid 0]) = [] := rfl
  unfold ptracer_loop_trap at hq ⊢
  simp only at hq ⊢
  split
  · rename_i h0
    rw [if_pos h0] at hq
    split
    · rename_i h1
      rw [if_pos h1] at hq
      exact absurd hgc hq
    · rename_i h1
      rw [if_neg h1] at hq
      split
      · rename_i h2
        rw [if_pos h2] at hq
        split
        · rename_i c h3
          rw [h3] at hq
          exact absurd hg hq
        · rename_i a h3
          rw [h3] at hq
          simp only at hq
          split
          · rename_i h4
            rw [if_pos h4] at hq
            exact absurd hgc hq
          · rename_i h4
            rw [if_neg h4] at hq
            split
            · rename_i h5
              rw [if_pos h5] at hq
              exact ptracer_loop_pathstub_writes argn path flags f_errno EXECUTABLE_PATH ev _
                hg hq
            · rename_i h5
              rw [if_neg h5] at hq
              exact ⟨_, hg, ptracer_loop_act_writes flags f_errno EXECUTABLE_PATH ev _ hg hq⟩
      · rename_i h2
        rw [if_neg h2] at hq
        split
        · rename_i h5
          rw [if_pos h5] at hq
          exact ptracer_loop_pathstub_writes argn path flags f_errno EXECUTABLE_PATH ev _ hg hq
        · rename_i h5
          rw [if_neg h5] at hq
          exact ⟨_, hg, ptracer_loop_act_writes flags f_errno EXECUTABLE_PATH ev _ hg hq⟩
  · rename_i h0
    rw [if_neg h0] at hq
    exact ⟨_, hg, ptracer_loop_act_writes flags f_errno EXECUTABLE_PATH ev _ hg hq⟩

/-- A non-negative C `int` keeps its value when stored in a 64-bit register. -/
theorem toU64_of_nonneg (e : Int) (h0 : 0 ≤ e) (h1 : e < 2 ^ 31) : (toU64 e : Int) = e := by
  unfold toU64
  rw [Int.emod_eq_of_lt h0 (by omega)]
  exact Int.toNat_of_nonneg h0

/-- Whenever the handling of a trap writes registers at all, the tracer is in
errno mode and the writes are the two of the stub sequence, which ends the
handling of that trap. -/
theorem ptracer_loop_trap_writes_only_stub (sys argn argv : Int) (path : List Nat)
    (flags : Nat) (f_errno : Int) (EXECUTABLE_PATH : List Nat) (ev : WaitStop)
    (hq : register_writes
      (ptracer_loop_trap sys argn argv path flags f_errno EXECUTABLE_PATH ev).1 ≠ []) :
    ISSET flags DO_CRASH = false ∧
    register_writes (ptracer_loop_trap sys argn argv path flags f_errno EXECUTABLE_PATH ev).1 =
      [{ ev.regs with orig_rax := 2 ^ 64 - 1 },
       { ev.regs with orig_rax := 2 ^ 64 - 1, rax := toU64 f_errno }] ∧
    ∃ pre, register_writes pre = [] ∧
      ptracer_loop_trap sys argn argv path flags f_errno EXECUTABLE_PATH ev =
        (pre ++ [.PTRACE_SETREGS ev.pid { ev.regs with orig_rax := 2 ^ 64 - 1 },
           .PTRACE_SYSCALL ev.pid, .waitpid ev.pid,
           .PTRACE_SETREGS ev.pid
             { ev.regs with orig_rax := 2 ^ 64 - 1, rax := toU64 f_errno },
           .PTRACE_CONT ev.pid 0], .next) := by
  obtain ⟨pre, hpre, hmode, heq⟩ :=
    ptracer_loop_trap_writes sys argn argv path flags f_errno EXECUTABLE_PATH ev hq
  have hm1 : toU64 (-1) = 2 ^ 64 - 1 := by decide
  rw [hm1] at heq
  refine ⟨hmode, ?_, pre, hpre, heq⟩
  · rw [heq]
    simp only
    rw [register_writes_append, hpre]
    rfl

/-- The action stage in errno mode, for a task that passes the executable
check (or when that check is off): the stub sequence is sent. -/
theorem ptracer_loop_act_stub (flags : Nat) (f_errno : Int) (EXECUTABLE_PATH : List Nat)
    (ev : WaitStop) (pre : List TracerAction)
    (hmode : ISSET flags DO_CRASH = false)
    (hexe : ISSET flags DO_CHECKPATH = true →
      ptracer_check_path (fun _ => ev.exe) EXECUTABLE_PATH ev.pid ev.stack = some 0) :
    ptracer_loop_act flags f_errno EXECUTABLE_PATH ev pre =
      (pre ++ [.PTRACE_SETREGS ev.pid { ev.regs with orig_rax := 2 ^ 64 - 1 },
         .PTRACE_SYSCALL ev.pid, .waitpid ev.pid,
         .PTRACE_SETREGS ev.pid { ev.regs with orig_rax := 2 ^ 64 - 1, rax := toU64 f_errno },
         .PTRACE_CONT ev.pid 0], .next) := by
  have hm1 : toU64 (-1) = 2 ^ 64 - 1 := by decide
  unfold ptracer_loop_act
  rw [hm1]
  cases h3 : ISSET flags DO_CHECKPATH with
  | true => simp [hexe h3, hmode]
  | false => simp [hmode]

/-- The path branch in errno mode, when the argument is read, the reader
returns, the string read compares equal to the configured path and the
executable check passes: the stub sequence is sent after the peeks. -/
theorem ptracer_loop_pathstub_stub (argn : Int) (path : List Nat) (flags : Nat)
    (f_errno : Int) (EXECUTABLE_PATH : List Nat) (ev : WaitStop) (pre : List TracerAction)
    (a : Int) (r : ReadResult) (x : Int)
    (hmode : ISSET flags DO_CRASH = false)
    (harg : ptrace_get_syscall_args argn ev.regs = .ret a)
    (hread : ptrace_get_string_from_tracee (peekdata ev.mem) (toU64 a)
      ((List.range PATH_MAX).map (fun i => ev.stack i % 256)) = some r)
    (hout : r.outcome = .ret x) (hcmp : strcmp r.buffer path = some 0)
    (hexe : ISSET flags DO_CHECKPATH = true →
      ptracer_check_path (fun _ => ev.exe) EXECUTABLE_PATH ev.pid ev.stack = some 0) :
    ptracer_loop_pathstub argn path flags f_errno EXECUTABLE_PATH ev pre =
      (pre ++ r.peeks.map (fun p => TracerAction.PTRACE_PEEKDATA ev.pid p) ++
        [.PTRACE_SETREGS ev.pid { ev.regs with orig_rax := 2 ^ 64 - 1 },
         .PTRACE_SYSCALL ev.pid, .waitpid ev.pid,
         .PTRACE_SETREGS ev.pid { ev.regs with orig_rax := 2 ^ 64 - 1, rax := toU64 f_errno },
         .PTRACE_CONT ev.pid 0], .next) := by
  unfold ptracer_loop_pathstub
  simp only [harg, hread, hout, hcmp]
  simp only [ne_eq, not_true_eq_false, if_false]
  exact ptracer_loop_act_stub flags f_errno EXECUTABLE_PATH ev _ hmode hexe

/-- C13: at every seccomp trap that qualifies in errno mode (`DO_CRASH` not
set), i.e. that passes every filter of lines 361-397 that the flags switch on
(with `DO_PARTIALSTUB` or `DO_PATHSTUB` the trapped number is `sys`; with
`DO_PARTIALSTUB` the `argn`-th argument is `argv`; with `DO_PATHSTUB` the
string read behind the `argn`-th argument compares equal to `path`; with
`DO_CHECKPATH` the executable check returns 0), the tracer writes the registers
back exactly twice: after `PTRACE_GETREGS` (and the peeks of the path read) it
sends `PTRACE_SETREGS` with the snapshot in which only `orig_rax` is replaced by
`-1` (as an `unsigned long long`), then `PTRACE_SYSCALL` and the `waitpid` for
the syscall-exit stop, then `PTRACE_SETREGS` with the first write in which only
`rax` is replaced by `f_errno`, then `PTRACE_CONT`; every other register of
both writes has the value of the snapshot, and nothing else is written. -/
theorem ptracer_loop_trap_two_writes (sys argn argv : Int) (path : List Nat) (flags : Nat)
    (f_errno : Int) (EXECUTABLE_PATH : List Nat) (ev : WaitStop)
    (hmode : ISSET flags DO_CRASH = false)
    (hnum : (ISSET flags DO_PARTIALSTUB || ISSET flags DO_PATHSTUB) = true →
      toLong ev.regs.orig_rax = sys)
    (hscalar : ISSET flags DO_PARTIALSTUB = true →
      ptrace_get_syscall_args argn ev.regs = .ret argv)
    (hpath : ISSET flags DO_PATHSTUB = true →
      ∃ a r x, ptrace_get_syscall_args argn ev.regs = .ret a ∧
        ptrace_get_string_from_tracee (peekdata ev.mem) (toU64 a)
          ((List.range PATH_MAX).map (fun i => ev.stack i % 256)) = some r ∧
        r.outcome = .ret x ∧ strcmp r.buffer path = some 0)
    (hexe : ISSET flags DO_CHECKPATH = true →
      ptracer_check_path (fun _ => ev.exe) EXECUTABLE_PATH ev.pid ev.stack = some 0) :
    ∃ peeks : List Nat,
      ptracer_loop_trap sys argn argv path flags f_errno EXECUTABLE_PATH ev =
        ([.PTRACE_GETREGS ev.pid] ++ peeks.map (fun p => .PTRACE_PEEKDATA ev.pid p) ++
          [.PTRACE_SETREGS ev.pid { ev.regs with orig_rax := 2 ^ 64 - 1 },
           .PTRACE_SYSCALL ev.pid, .waitpid ev.pid,
           .PTRACE_SETREGS ev.pid
             { ev.regs with orig_rax := 2 ^ 64 - 1, rax := toU64 f_errno },
           .PTRACE_CONT ev.pid 0], .next) ∧
      register_writes
          (ptracer_loop_trap sys argn argv path flags f_errno EXECUTABLE_PATH ev).1 =
        [{ ev.regs with orig_rax := 2 ^ 64 - 1 },
         { ev.regs with orig_rax := 2 ^ 64 - 1, rax := toU64 f_errno }] := by
  have key : ∃ peeks : List Nat,
      ptracer_loop_trap sys argn argv path flags f_errno EXECUTABLE_PATH ev =
        ([.PTRACE_GETREGS ev.pid] ++ peeks.map (fun p => .PTRACE_PEEKDATA ev.pid p) ++
          [.PTRACE_SETREGS ev.pid { ev.regs with orig_rax := 2 ^ 64 - 1 },
           .PTRACE_SYSCALL ev.pid, .waitpid ev.pid,
           .PTRACE_SETREGS ev.pid
             { ev.regs with orig_rax := 2 ^ 64 - 1, rax := toU64 f_errno },
           .PTRACE_CONT ev.pid 0], .next) := by
    unfold ptracer_loop_trap
    cases h1 : ISSET flags DO_PARTIALSTUB with
    | true =>
      have hs := hnum (by simp [h1])
      have ha := hscalar h1
      cases h2 : ISSET flags DO_PATHSTUB with
      | true =>
        obtain ⟨a, r, x, harg, hread, hout, hcmp⟩ := hpath h2
        have haa : a = argv := by
          rw [ha] at harg
          exact (Outcome.ret.inj harg).symm
        subst haa
        refine ⟨r.peeks, ?_⟩
        simp only [hs, ha, Bool.or_self, if_true, ne_eq, not_true_eq_false, if_false]
        exact ptracer_loop_pathstub_stub argn path flags f_errno EXECUTABLE_PATH ev _ a r x
          hmode harg hread hout hcmp hexe
      | false =>
        refine ⟨[], ?_⟩
        simp only [hs, ha, Bool.or_false, if_true, ne_eq, not_true_eq_false, if_false,
          Bool.false_eq_true, List.map_nil, List.append_nil]
        exact ptracer_loop_act_stub flags f_errno EXECUTABLE_PATH ev _ hmode hexe
    | false =>
      cases h2 : ISSET flags DO_PATHSTUB with
      | true =>
        have hs := hnum (by simp [h2])
        obtain ⟨a, r, x, harg, hread, hout, hcmp⟩ := hpath h2
        refine ⟨r.peeks, ?_⟩
        simp only [hs, Bool.false_or, if_true, ne_eq, not_true_eq_false, if_false,
          Bool.false_eq_true]
        exact ptracer_loop_pathstub_stub argn path flags f_errno EXECUTABLE_PATH ev _ a r x
          hmode harg hread hout hcmp hexe
      | false =>
        refine ⟨[], ?_⟩
        simp only [Bool.or_self, Bool.false_eq_true, if_false, List.map_nil, List.append_nil]
        exact ptracer_loop_act_stub flags f_errno EXECUTABLE_PATH ev _ hmode hexe
  obtain ⟨peeks, hk⟩ := key
  refine ⟨peeks, hk, ?_⟩
  rw [hk]
  simp only
  rw [register_writes_append, register_writes_append, register_writes_peeks]
  rfl

set_option maxRecDepth 100000 in
/-- C13 at a concrete input: every filter switched on (`-p 0 8176`,
`-t 0 /etc/shadow`, `-y /bin/a`, errno 38, syscall 2), task 100 runs `/bin/a`
and enters `open` with argument 0 equal to 8176, where `"/etc/shadow"` is
stored.  All four filters pass and the registers are written twice, first with
`orig_rax = -1`, then with `rax = 38` as well. -/
theorem ptracer_loop_trap_two_writes_witness :
    ∃ peeks : List Nat,
      ptracer_loop_trap 2 0 8176 [47, 101, 116, 99, 47, 115, 104, 97, 100, 111, 119, 0]
          (DO_PTRACE ||| DO_PARTIALSTUB ||| DO_PATHSTUB ||| DO_CHECKPATH ||| DO_ERRNO) 38
          ([47, 98, 105, 110, 47, 97] ++ List.replicate (PATH_MAX + 1 - 6) 0)
          shadow_open_stop =
        ([.PTRACE_GETREGS shadow_open_stop.pid] ++
          peeks.map (fun p => .PTRACE_PEEKDATA shadow_open_stop.pid p) ++
          [.PTRACE_SETREGS shadow_open_stop.pid
             { shadow_open_stop.regs with orig_rax := 2 ^ 64 - 1 },
           .PTRACE_SYSCALL shadow_open_stop.pid, .waitpid shadow_open_stop.pid,
           .PTRACE_SETREGS shadow_open_stop.pid
             { shadow_open_stop.regs with orig_rax := 2 ^ 64 - 1, rax := toU64 38 },
           .PTRACE_CONT shadow_open_stop.pid 0], .next) ∧
      register_writes
          (ptracer_loop_trap 2 0 8176 [47, 101, 116, 99, 47, 115, 104, 97, 100, 111, 119, 0]
            (DO_PTRACE ||| DO_PARTIALSTUB ||| DO_PATHSTUB ||| DO_CHECKPATH ||| DO_ERRNO) 38
            ([47, 98, 105, 110, 47, 97] ++ List.replicate (PATH_MAX + 1 - 6) 0)
            shadow_open_stop).1 =
        [{ shadow_open_stop.regs with orig_rax := 2 ^ 64 - 1 },
         { shadow_open_stop.regs with orig_rax := 2 ^ 64 - 1, rax := toU64 38 }] :=
  ptracer_loop_trap_two_writes 2 0 8176 [47, 101, 116, 99, 47, 115, 104, 97, 100, 111, 119, 0]
    (DO_PTRACE ||| DO_PARTIALSTUB ||| DO_PATHSTUB ||| DO_CHECKPATH ||| DO_ERRNO) 38
    ([47, 98, 105, 110, 47, 97] ++ List.replicate (PATH_MAX + 1 - 6) 0) shadow_open_stop
    (by decide) (fun _ => by decide) (fun _ => by decide)
    (fun _ => by
      cases h : ptrace_get_string_from_tracee (peekdata shadow_open_stop.mem) (toU64 8176)
          ((List.range PATH_MAX).map (fun i => shadow_open_stop.stack i % 256)) with
      | none =>
        have hs : (ptrace_get_string_from_tracee (peekdata shadow_open_stop.mem) (toU64 8176)
            ((List.range PATH_MAX).map (fun i => shadow_open_stop.stack i % 256))).isSome =
            true := by decide
        rw [h] at hs
        exact absurd hs (by decide)
      | some r =>
        have ho : (ptrace_get_string_from_tracee (peekdata shadow_open_stop.mem) (toU64 8176)
            ((List.range PATH_MAX).map (fun i => shadow_open_stop.stack i % 256))).map
            (fun r => r.outcome) = some (.ret 0) := by decide
        have hc : (ptrace_get_string_from_tracee (peekdata shadow_open_stop.mem) (toU64 8176)
            ((List.range PATH_MAX).map (fun i => shadow_open_stop.stack i % 256))).bind
            (fun r => strcmp r.buffer
              [47, 101, 116, 99, 47, 115, 104, 97, 100, 111, 119, 0]) = some 0 := by decide
        rw [h] at ho hc
        exact ⟨8176, r, 0, by decide, h, by simpa using ho, by simpa using hc⟩)
    (fun _ => by decide)

set_option maxRecDepth 100000 in
/-- The `errno` read at line 661 is the C library's: `-e 38 -n 1 9 prog` with
`ERANGE` left in `errno` by a library call after the option loop installs a
filter that answers syscall 9 with `SECCOMP_RET_ERRNO | 34`, not with 38. -/
theorem main_errno_overwritten :
    main 6 4 1 [9, 0] DO_ERRNO 0 0 [] 38 [] erange_env =
      [.prctl_no_new_privs,
       .seccomp
         [BPF_STMT (BPF_LD ||| BPF_W ||| BPF_ABS) offsetof_arch,
          BPF_JUMP (BPF_JMP ||| BPF_JEQ ||| BPF_K) AUDIT_ARCH_X86_64 0 5,
          BPF_STMT (BPF_LD ||| BPF_W ||| BPF_ABS) offsetof_nr,
          BPF_JUMP (BPF_JMP ||| BPF_JGT ||| BPF_K) (X32_SYSCALL_BIT - 1 : Nat) 3 0,
          BPF_JUMP (BPF_JMP ||| BPF_JEQ ||| BPF_K) 9 0 1,
          BPF_STMT (BPF_RET ||| BPF_K) (SECCOMP_RET_ERRNO ||| 34 : Nat),
          BPF_STMT (BPF_RET ||| BPF_K) SECCOMP_RET_ALLOW,
          BPF_STMT (BPF_RET ||| BPF_K) SECCOMP_RET_KILL_PROCESS],
       .execv] := by
  decide

end Loupe
